import Mathlib

/-!
Verification development for `src/signpdf.js` (node-signpdf).

The document and all JS `Buffer`/binary-string values are modelled as lists
of byte values (`Buf := List Nat`).  The JS `Buffer.indexOf`, `Buffer.slice`,
`String.prototype.repeat` and hex encoding primitives are embedded explicitly
(`jsIndexOf`, `jsSlice`, `jsRepeatList`, `hexEncodeBytes`), with the JS
`-1`-sentinel and negative-index semantics kept, since the source relies on
them.  The external cryptographic toolkit (node-forge, node `crypto`) is out
of scope per the spec and is abstracted as records of functions
(`SignToolkit`, `VerifyToolkit`); the two helpers imported from `./helpers`
(`removeTrailingNewLine`, `extractSignature`) are not under `src/` and are
modelled from the spec (marked below).
-/

/-- Byte buffers: JS `Buffer` values and JS binary strings alike. -/
abbrev Buf := List Nat

/-- Byte list of an ASCII string literal. -/
def strBytes (s : String) : Buf := s.data.map Char.toNat

/-- Does `needle` occur at the head of `hay`? -/
def leadMatch : Buf → Buf → Bool
  | [], _ => true
  | _ :: _, [] => false
  | n :: ns, h :: hs => (n == h) && leadMatch ns hs

/-- First occurrence position of `needle` inside a list. -/
def findSub (needle : Buf) : Buf → Option Nat
  | [] => if leadMatch needle [] then some 0 else none
  | h :: t => if leadMatch needle (h :: t) then some 0 else (findSub needle t).map (· + 1)

/-- JS `Buffer.prototype.indexOf(needle, byteOffset)`: returns `-1` when absent;
a negative offset counts from the end of the buffer (clamped at 0). -/
def jsIndexOf (buf needle : Buf) (start : Int) : Int :=
  let s : Nat := (if start < 0 then (buf.length : Int) + start else start).toNat
  match findSub needle (buf.drop s) with
  | some i => ((s + i : Nat) : Int)
  | none => -1

/-- JS `Buffer.prototype.slice(start, end)` (TypedArray `subarray` semantics):
negative indices count from the end, indices are clamped to the buffer. -/
def jsSlice (buf : Buf) (s e : Int) : Buf :=
  let n : Int := (buf.length : Int)
  let s' := (if s < 0 then max (n + s) 0 else min s n).toNat
  let e' := (if e < 0 then max (n + e) 0 else min e n).toNat
  (buf.take e').drop s'

/-- JS `String.prototype.repeat(count)` on a byte-list string: a negative count
throws a `RangeError` (a plain JS error, not a `SignPdfError`). -/
def jsRepeatList (l : Buf) (count : Int) : Except String Buf :=
  if count < 0 then .error "Invalid count value"
  else .ok (List.flatten (List.replicate count.toNat l))

/-- Lowercase hex digit (byte code) of a value `< 16`. -/
def hexDigit (d : Nat) : Nat := if d < 10 then 48 + d else 87 + d

/-- JS `Buffer.prototype.toString('hex')`: two lowercase hex chars per byte. -/
def hexEncodeBytes : Buf → Buf
  | [] => []
  | v :: rest => hexDigit ((v % 256) / 16) :: hexDigit (v % 16) :: hexEncodeBytes rest

/-- Value of a hex-digit byte code, `none` for a non-hex character. -/
def hexVal (c : Nat) : Option Nat :=
  if 48 ≤ c ∧ c ≤ 57 then some (c - 48)
  else if 97 ≤ c ∧ c ≤ 102 then some (c - 87)
  else if 65 ≤ c ∧ c ≤ 70 then some (c - 55)
  else none

/-- Decode a hex character sequence back to bytes (strict). -/
def hexDecode : Buf → Option Buf
  | [] => some []
  | [_] => none
  | h :: l :: rest =>
    match hexVal h, hexVal l, hexDecode rest with
    | some hv, some lv, some tl => some ((16 * hv + lv) :: tl)
    | _, _, _ => none

/-- Decimal digit byte codes of a natural number (fuel-driven so that it is
structurally recursive; `fuel > n` suffices). -/
def natDigitsAux : Nat → Nat → Buf
  | 0, _ => []
  | fuel + 1, n => if n < 10 then [48 + n] else natDigitsAux fuel (n / 10) ++ [48 + n % 10]

/-- Decimal digit byte codes of a natural number, most significant first. -/
def natDigits (n : Nat) : Buf := natDigitsAux (n + 1) n

/-- JS number-to-string for integers (as used by `Array.prototype.join` and in
template strings): decimal digits, with a leading `-` when negative. -/
def intReprBytes (i : Int) : Buf :=
  if i < 0 then 45 :: natDigits (-i).toNat else natDigits i.toNat

/-- Split a byte list on a separator byte (like `String.prototype.split`). -/
def splitOnByte (sep : Nat) : Buf → List Buf
  | [] => [[]]
  | x :: xs =>
    if x = sep then [] :: splitOnByte sep xs
    else
      match splitOnByte sep xs with
      | [] => [[x]]
      | y :: ys => (x :: y) :: ys

/-- Is a byte code an ASCII decimal digit? -/
def isDigitByte (c : Nat) : Bool := 48 ≤ c && c ≤ 57

/-- Read a nonempty all-digit byte list as a natural number. -/
def readNatOpt (l : Buf) : Option Nat :=
  if l ≠ [] ∧ l.all isDigitByte then
    some (l.foldl (fun a c => 10 * a + (c - 48)) 0)
  else none

/-- Parse the four whitespace-separated `/ByteRange` integers. -/
def parseNums (l : Buf) : Option (Nat × Nat × Nat × Nat) :=
  match (splitOnByte 32 l).map readNatOpt with
  | [some a, some b, some c, some d] => some (a, b, c, d)
  | _ => none

/-! ## Error model (`SignPdfError.js`) -/

/-- The three `SignPdfError` type tags. -/
inductive SignPdfErrorType
  | TYPE_INPUT
  | TYPE_PARSE
  | VERIFY_SIGNATURE
deriving DecidableEq, Repr

/-- A thrown `SignPdfError`: message and type tag. -/
structure SignPdfError where
  message : String
  type : SignPdfErrorType
deriving DecidableEq, Repr

/-- A JS exception: either a structured `SignPdfError` or any other error
(`TypeError`, `RangeError`, errors thrown inside node-forge, ...). -/
inductive JsThrow
  | signPdf (e : SignPdfError)
  | js (message : String)
deriving DecidableEq, Repr

/-! ## Placeholder constants (lines 8, 43-49) -/

/-- `DEFAULT_BYTE_RANGE_PLACEHOLDER = '**********'`. -/
def DEFAULT_BYTE_RANGE_PLACEHOLDER : String := "**********"

/-- The `byteRangePlaceholder` array `[0, '/<p>', '/<p>', '/<p>']` rendered
elementwise as by JS `Array.prototype.join(' ')`. -/
def byteRangePlaceholderParts : List Buf :=
  [intReprBytes 0,
   strBytes "/" ++ strBytes DEFAULT_BYTE_RANGE_PLACEHOLDER,
   strBytes "/" ++ strBytes DEFAULT_BYTE_RANGE_PLACEHOLDER,
   strBytes "/" ++ strBytes DEFAULT_BYTE_RANGE_PLACEHOLDER]

/-- `byteRangeString` (line 49): the literal ByteRange placeholder text. -/
def byteRangeString : Buf :=
  strBytes "/ByteRange [" ++ List.intercalate (strBytes " ") byteRangePlaceholderParts
    ++ strBytes "]"

/-! ## Helpers imported from `./helpers` (not under `src/`) -/

/-- Modelled from the spec: the helper `removeTrailingNewLine` imported from
`./helpers` at line 4 and applied at line 40; its source is not under `src/`.
Per its name and use, it drops a single trailing newline byte (0x0A) when the
buffer ends with one, and returns the buffer unchanged otherwise. -/
def removeTrailingNewLine (pdf : Buf) : Buf :=
  if pdf.getLast? = some 10 then pdf.dropLast else pdf

/-! ## sign: locating the placeholder (lines 40-68) -/

/-- The intermediate values lines 50-68 of `sign` compute: positions found by
`indexOf` (JS `-1` sentinels included, hence `Int`) and the computed
`byteRange` array `[0, byteRange1, byteRange2, byteRange3]`. -/
structure LocInfo where
  byteRangePos : Int
  byteRangeEnd : Int
  contentsTagPos : Int
  placeholderPos : Int
  placeholderEnd : Int
  placeholderLengthWithBrackets : Int
  placeholderLength : Int
  byteRange0 : Int
  byteRange1 : Int
  byteRange2 : Int
  byteRange3 : Int
deriving DecidableEq, Repr

/-- Lines 50-68 of `sign`: locate the ByteRange placeholder (throwing a
`TYPE_PARSE` error if absent) and compute the actual byte range.  Note the
source never checks `contentsTagPos`, `placeholderPos` or `placeholderEnd`
against `-1`. -/
def signLocate (pdf : Buf) : Except JsThrow LocInfo :=
  let byteRangePos := jsIndexOf pdf byteRangeString 0
  if byteRangePos = -1 then
    .error (.signPdf ⟨"Could not find ByteRange placeholder: /ByteRange [0 /********** /********** /**********]",
      SignPdfErrorType.TYPE_PARSE⟩)
  else
    let byteRangeEnd := byteRangePos + (byteRangeString.length : Int)
    let contentsTagPos := jsIndexOf pdf (strBytes "/Contents ") byteRangeEnd
    let placeholderPos := jsIndexOf pdf (strBytes "<") contentsTagPos
    let placeholderEnd := jsIndexOf pdf (strBytes ">") placeholderPos
    let placeholderLengthWithBrackets := (placeholderEnd + 1) - placeholderPos
    let placeholderLength := placeholderLengthWithBrackets - 2
    .ok ⟨byteRangePos, byteRangeEnd, contentsTagPos, placeholderPos, placeholderEnd,
      placeholderLengthWithBrackets, placeholderLength,
      0, placeholderPos, placeholderPos + placeholderLengthWithBrackets,
      (pdf.length : Int) - (placeholderPos + placeholderLengthWithBrackets)⟩

/-- Lines 69-70: the actual `/ByteRange [...]` text. -/
def actualByteRangeBytes (loc : LocInfo) : Buf :=
  strBytes "/ByteRange [" ++
    List.intercalate (strBytes " ")
      [intReprBytes loc.byteRange0, intReprBytes loc.byteRange1,
       intReprBytes loc.byteRange2, intReprBytes loc.byteRange3] ++
    strBytes "]"

/-- Lines 69-77: write the actual ByteRange over the placeholder, right-padded
with spaces to the placeholder's width.  A negative repeat count (actual text
wider than the placeholder) throws a JS `RangeError`. -/
def signSpliceByteRange (pdf : Buf) (loc : LocInfo) : Except JsThrow Buf :=
  let actualByteRange := actualByteRangeBytes loc
  match jsRepeatList (strBytes " ") ((byteRangeString.length : Int) - (actualByteRange.length : Int)) with
  | .error m => .error (.js m)
  | .ok pad =>
    .ok (jsSlice pdf 0 loc.byteRangePos ++ (actualByteRange ++ pad)
          ++ jsSlice pdf loc.byteRangeEnd (pdf.length : Int))

/-- Lines 79-83: remove the placeholder signature field. -/
def signExcisePlaceholder (pdf : Buf) (loc : LocInfo) : Buf :=
  jsSlice pdf 0 loc.byteRange1 ++ jsSlice pdf loc.byteRange2 (loc.byteRange2 + loc.byteRange3)

/-! ## sign: the cryptographic toolkit boundary (node-forge, out of scope) -/

/-- An RSA private key as `sign` observes it: the numeric parameters `n`, `e`
compared with `BigInteger.compareTo` at lines 119-120. -/
structure PrivateKey where
  n : Nat
  e : Nat
deriving DecidableEq, Repr

/-- A certificate as `sign` observes it: its public key's numeric parameters,
plus an opaque serial distinguishing distinct certificates. -/
structure Certificate where
  publicKeyN : Nat
  publicKeyE : Nat
  serial : Nat
deriving DecidableEq, Repr

/-- A PKCS#12 certificate bag. -/
structure CertBag where
  cert : Certificate
deriving DecidableEq, Repr

/-- The bags extracted from the PKCS#12 container (lines 96-101). -/
structure Pkcs12Parsed where
  certBags : List CertBag
  keyBags : List PrivateKey
deriving DecidableEq, Repr

/-- The node-forge primitives `sign` consumes (spec §6: external collaborators):
DER-parsing the PKCS#12 container (lines 86-92; failures are plain forge
errors) and building + DER-serializing the detached PKCS#7 SignedData with its
authenticated attributes (lines 105-159; content, bundled certificates,
signer certificate, private key). -/
structure SignToolkit where
  pkcs12FromDer : Buf → Bool → String → Except String Pkcs12Parsed
  p7BuildSignedDataDer : Buf → List Certificate → Certificate → PrivateKey → Buf

/-- Lines 112-124: the `forEach` over the certificate bags. Each bag whose
public-key parameters equal the private key's overwrites `certificate`, so the
last match in bag order wins. -/
def selectCertificate (certBags : List CertBag) (privateKey : PrivateKey) : Option Certificate :=
  certBags.foldl
    (fun certificate bag =>
      if privateKey.n = bag.cert.publicKeyN ∧ privateKey.e = bag.cert.publicKeyE then
        some bag.cert
      else certificate)
    none

/-- Bool form of the key-match test at lines 119-120. -/
def keyMatches (privateKey : PrivateKey) (bag : CertBag) : Bool :=
  privateKey.n == bag.cert.publicKeyN && privateKey.e == bag.cert.publicKeyE

/-- `sign`'s options (lines 21-25) with their defaults. -/
structure SignOptions where
  asn1StrictParsing : Bool := false
  passphrase : String := ""

/-- The default options value. -/
def defaultOptions : SignOptions := {}

/-- Message of the placeholder-capacity error (lines 163-166). -/
def sigTooBigMsg (rawLen : Nat) (placeholderLength : Int) : String :=
  "Signature exceeds placeholder length: " ++ toString (rawLen * 2) ++ " > "
    ++ toString placeholderLength

/-- Lines 155-186 of `sign`: serialize the detached SignedData to DER bytes
(`raw`), check it fits the placeholder (lines 158-167, throwing `TYPE_INPUT`
when `raw.length * 2 > placeholderLength`), hex-encode, zero-pad to the
placeholder width (lines 169-176; JS `placeholderLength / 2` is float
division whose value `String.prototype.repeat` truncates), and splice the
bracketed signature in at `byteRange[1]` (lines 178-183).  Returns the signed
buffer and `lastSignature` (the hex signature stored at line 171, before
padding). -/
def signEmbedSignature (tk : SignToolkit) (pdf2 : Buf) (loc : LocInfo)
    (certs : List Certificate) (certificate : Certificate) (privateKey : PrivateKey) :
    Except JsThrow (Buf × Buf) :=
  let raw := tk.p7BuildSignedDataDer pdf2 certs certificate privateKey
  if ((raw.length * 2 : Nat) : Int) > loc.placeholderLength then
    .error (.signPdf ⟨sigTooBigMsg raw.length loc.placeholderLength,
      SignPdfErrorType.TYPE_INPUT⟩)
  else
    match jsRepeatList [0] (loc.placeholderLength / 2 - (raw.length : Int)) with
    | .error m => .error (.js m)
    | .ok zeros =>
      .ok (jsSlice pdf2 0 loc.byteRange1
            ++ ((60 : Nat) :: (hexEncodeBytes raw ++ hexEncodeBytes zeros) ++ [62])
            ++ jsSlice pdf2 loc.byteRange1 (pdf2.length : Int),
        hexEncodeBytes raw)

/-- Lines 42-186 of `sign`, after the trailing-newline trim: locate, rewrite,
excise, parse the PKCS#12 container (line 103 reads `keyBags[0]`, a JS
`TypeError` when there is no key bag), select the certificate matching the
private key (an `TYPE_INPUT` error when none does), then build and embed the
signature. -/
def signAfterTrim (tk : SignToolkit) (pdf p12Buffer : Buf) (options : SignOptions) :
    Except JsThrow (Buf × Buf) :=
  match signLocate pdf with
  | .error e => .error e
  | .ok loc =>
    match signSpliceByteRange pdf loc with
    | .error e => .error e
    | .ok pdf1 =>
      match tk.pkcs12FromDer p12Buffer options.asn1StrictParsing options.passphrase with
      | .error m => .error (.js m)
      | .ok p12 =>
        match p12.keyBags.head? with
        | none => .error (.js "Cannot read properties of undefined (reading key)")
        | some privateKey =>
          match selectCertificate p12.certBags privateKey with
          | none =>
            .error (.signPdf ⟨"Failed to find a certificate that matches the private key.",
              SignPdfErrorType.TYPE_INPUT⟩)
          | some certificate =>
            signEmbedSignature tk (signExcisePlaceholder pdf1 loc) loc
              (p12.certBags.map CertBag.cert) certificate privateKey

/-- `SignPdf.sign` (lines 16-187) on already-type-checked `Buffer` inputs:
line 40 trims a trailing newline, then the pipeline above runs. -/
def sign (tk : SignToolkit) (pdfBuffer p12Buffer : Buf) (options : SignOptions) :
    Except JsThrow (Buf × Buf) :=
  signAfterTrim tk (removeTrailingNewLine pdfBuffer) p12Buffer options

/-! ## verify (lines 189-242) -/

/-- Modelled from the spec: the helper `extractSignature` imported from
`./helpers` at line 4 and called at line 197; its source is not under `src/`.
Per spec §2/§6 it reads the real `/ByteRange [n n n n]` values already written
into the signed document, returns the two denoted spans concatenated in order
as the signed data, and the signature bytes hex-decoded from between the
angle brackets of the `/Contents` field; any failure is an extraction error
(`none`, surfaced by `verify` as the generic failure reason). -/
def extractSignature (pdf : Buf) : Option (Buf × Buf) :=
  let byteRangePos := jsIndexOf pdf (strBytes "/ByteRange [") 0
  if byteRangePos < 0 then none
  else
    let byteRangeEnd := jsIndexOf pdf (strBytes "]") byteRangePos
    if byteRangeEnd < 0 then none
    else
      match parseNums (jsSlice pdf (byteRangePos + 12) byteRangeEnd) with
      | none => none
      | some (n0, n1, n2, n3) =>
        let signedData := jsSlice pdf (n0 : Int) ((n0 : Int) + (n1 : Int))
          ++ jsSlice pdf (n2 : Int) ((n2 : Int) + (n3 : Int))
        match hexDecode (jsSlice pdf ((n0 : Int) + (n1 : Int) + 1) ((n2 : Int) - 1)) with
        | none => none
        | some signature => some (signature, signedData)

/-- What `verify` captures from the parsed PKCS#7 message (lines 198-227):
the raw signature value, the raw authenticated-attributes set (abstract),
the resolved digest-algorithm name, the bundled certificates, and the value
of the message-digest authenticated attribute (`none` when that attribute is
absent, which in JS surfaces as a `TypeError` at line 227). -/
structure ParsedP7 where
  sig : Buf
  attrs : Buf
  hashAlg : String
  certs : List Certificate
  msgDigestValue : Option Buf
deriving DecidableEq, Repr

/-- The node-forge / node-crypto primitives `verify` consumes (spec §6):
DER-parsing the SignedData (lines 198-206; `none` models any forge parse
throw, including an unknown digest-algorithm OID), re-serializing the
attribute set (lines 207-213), PEM-encoding the certificate (line 214), the
public-key signature check (lines 215-217) and the digest (lines 228-230). -/
structure VerifyToolkit where
  parseSignedData : Buf → Option ParsedP7
  derEncodeAttrSet : Buf → Buf
  certToPem : Certificate → String
  cryptoVerify : String → Buf → String → Buf → Bool
  cryptoHash : String → Buf → Buf

/-- The generic catch-all reason string of line 240. -/
def genericVerifyFailure : String := "couldn't verify file signature"

/-- The `VerificationResult` object: `{verified, message}` (note the source
names the reason field `message`, line 240; a success carries no message). -/
structure VerificationResult where
  verified : Bool
  message : Option String
deriving DecidableEq, Repr

/-- The body of `verify`'s `try` block (lines 197-238); a `.error` is a thrown
exception reaching the `catch`. -/
def verifyTry (vt : VerifyToolkit) (pdfBuffer : Buf) : Except JsThrow VerificationResult :=
  match extractSignature pdfBuffer with
  | none => .error (.js "signature extraction failed")
  | some (signature, signedData) =>
    match vt.parseSignedData signature with
    | none => .error (.js "forge parse failed")
    | some message =>
      let sig := message.sig
      let attrs := message.attrs
      let hashAlgorithm := message.hashAlg
      let buf := vt.derEncodeAttrSet attrs
      match message.certs.head? with
      | none => .error (.js "Cannot read properties of undefined (reading certificate)")
      | some cert0 =>
        let cert := vt.certToPem cert0
        let validAuthenticatedAttributes := vt.cryptoVerify hashAlgorithm buf cert sig
        if validAuthenticatedAttributes = false then
          .error (.signPdf ⟨"Wrong authenticated attributes", SignPdfErrorType.VERIFY_SIGNATURE⟩)
        else
          match message.msgDigestValue with
          | none => .error (.js "Cannot read properties of undefined (reading value)")
          | some attrDigest =>
            let dataDigest := vt.cryptoHash hashAlgorithm signedData
            if dataDigest ≠ attrDigest then
              .error (.signPdf ⟨"Wrong content digest", SignPdfErrorType.VERIFY_SIGNATURE⟩)
            else
              .ok ⟨true, none⟩

/-- Lines 196-241: the `try`/`catch`.  A `SignPdfError`'s message is kept
verbatim; any other exception becomes the generic reason. -/
def verifyBuf (vt : VerifyToolkit) (pdfBuffer : Buf) : VerificationResult :=
  match verifyTry vt pdfBuffer with
  | .ok r => r
  | .error (.signPdf e) => ⟨false, some e.message⟩
  | .error (.js _) => ⟨false, some genericVerifyFailure⟩

/-- A JS argument to `verify`: either a `Buffer` or any non-`Buffer` value. -/
inductive JsValue
  | buffer (b : Buf)
  | nonBuffer

/-- `SignPdf.verify` (lines 189-242).  The `instanceof Buffer` check at lines
190-195 sits OUTSIDE the `try`, so a non-Buffer argument THROWS a
`SignPdfError` instead of returning a result. -/
def verify (vt : VerifyToolkit) : JsValue → Except SignPdfError VerificationResult
  | .nonBuffer => .error ⟨"PDF expected as Buffer.", SignPdfErrorType.TYPE_INPUT⟩
  | .buffer b => .ok (verifyBuf vt b)
-- Lemma block A: jsSlice and findSub facts

theorem jsSlice_eq (l : Buf) (s e : Nat) (he : e ≤ l.length) :
    jsSlice l (s : Int) (e : Int) = (l.take e).drop s := by
  unfold jsSlice
  have h1 : ¬ ((s : Int) < 0) := by omega
  have h2 : ¬ ((e : Int) < 0) := by omega
  simp only [h1, h2, if_false, if_neg]
  have he' : (min (e : Int) ((l.length : Nat) : Int)).toNat = e := by omega
  rw [he']
  by_cases hs : s ≤ l.length
  · have : (min (s : Int) ((l.length : Nat) : Int)).toNat = s := by omega
    rw [this]
  · have hlen : (min (s : Int) ((l.length : Nat) : Int)).toNat = l.length := by omega
    rw [hlen]
    have l1 : (l.take e).length = e := List.length_take_of_le he
    rw [List.drop_eq_nil_of_le (by omega), List.drop_eq_nil_of_le (by omega)]

theorem jsSlice_append_left (x y : Buf) : jsSlice (x ++ y) 0 (x.length : Int) = x := by
  have h0 : (0 : Int) = ((0 : Nat) : Int) := rfl
  rw [h0, jsSlice_eq (x ++ y) 0 x.length (by simp)]
  simp [List.take_left]

theorem jsSlice_append_right (x y : Buf) :
    jsSlice (x ++ y) (x.length : Int) ((x ++ y).length : Int) = y := by
  rw [jsSlice_eq (x ++ y) x.length (x ++ y).length (le_refl _)]
  rw [List.take_length, List.drop_left]

theorem jsSlice_append_mid (x y z : Buf) :
    jsSlice (x ++ y ++ z) (x.length : Int) ((x.length + y.length : Nat) : Int) = y := by
  rw [jsSlice_eq (x ++ y ++ z) x.length (x.length + y.length) (by simp)]
  have h1 : x ++ y ++ z = (x ++ y) ++ z := by simp
  rw [h1]
  have h2 : (x ++ y).length = x.length + y.length := by simp
  rw [← h2, List.take_left, List.drop_left]

theorem leadMatch_exists {n l : Buf} (h : leadMatch n l = true) : ∃ t, l = n ++ t := by
  induction n generalizing l with
  | nil => exact ⟨l, rfl⟩
  | cons a as ih =>
    cases l with
    | nil => simp [leadMatch] at h
    | cons b bs =>
      simp only [leadMatch, Bool.and_eq_true, beq_iff_eq] at h
      obtain ⟨t, ht⟩ := ih h.2
      exact ⟨t, by rw [h.1, ht]; rfl⟩

theorem findSub_bound {n l : Buf} {i : Nat} (h : findSub n l = some i) :
    i + n.length ≤ l.length := by
  induction l generalizing i with
  | nil =>
    cases n with
    | nil =>
      simp [findSub, leadMatch] at h
      omega
    | cons a as => simp [findSub, leadMatch] at h
  | cons b bs ih =>
    simp only [findSub] at h
    split at h
    · rename_i hm
      obtain ⟨t, ht⟩ := leadMatch_exists hm
      injection h with h0
      have hlen := congrArg List.length ht
      simp at hlen
      simp
      omega
    · cases hrec : findSub n bs with
      | none => rw [hrec] at h; simp at h
      | some j =>
        rw [hrec] at h
        simp at h
        have := ih hrec
        simp
        omega

theorem jsIndexOf_def (buf needle : Buf) (start : Int) :
    jsIndexOf buf needle start =
      match findSub needle (buf.drop ((if start < 0 then (buf.length : Int) + start else start).toNat)) with
      | some i => ((((if start < 0 then (buf.length : Int) + start else start).toNat) + i : Nat) : Int)
      | none => -1 := rfl

theorem jsIndexOf_cases (buf needle : Buf) (start : Int) (hne : needle ≠ []) :
    jsIndexOf buf needle start = -1 ∨
    ∃ k : Nat, jsIndexOf buf needle start = (k : Int) ∧ k + needle.length ≤ buf.length := by
  rw [jsIndexOf_def]
  set s : Nat := (if start < 0 then (buf.length : Int) + start else start).toNat with hs
  cases h : findSub needle (buf.drop s) with
  | none => left; rfl
  | some i =>
    right
    refine ⟨s + i, rfl, ?_⟩
    have hb := findSub_bound h
    have hd : (buf.drop s).length = buf.length - s := by simp
    rw [hd] at hb
    have hn : 1 ≤ needle.length := by
      cases needle with
      | nil => exact absurd rfl hne
      | cons a as => simp
    omega

theorem flatten_replicate_singleton (k : Nat) (x : Nat) :
    List.flatten (List.replicate k [x]) = List.replicate k x := by
  induction k with
  | zero => rfl
  | succ m ih => simp [List.replicate_succ, ih]
-- Lemma block B: decimal rendering/parsing and hex round trips

theorem natDigitsAux_fuel {fuel1 fuel2 n : Nat} (h1 : n < fuel1) (h2 : n < fuel2) :
    natDigitsAux fuel1 n = natDigitsAux fuel2 n := by
  induction fuel1 generalizing fuel2 n with
  | zero => omega
  | succ f ih =>
    cases fuel2 with
    | zero => omega
    | succ g =>
      simp only [natDigitsAux]
      by_cases hn : n < 10
      · simp [hn]
      · have hd : n / 10 < n := Nat.div_lt_self (by omega) (by omega)
        simp only [hn, if_false]
        rw [@ih g (n / 10) (by omega) (by omega)]

theorem natDigits_unfold (n : Nat) :
    natDigits n = if n < 10 then [48 + n] else natDigits (n / 10) ++ [48 + n % 10] := by
  show natDigitsAux (n + 1) n = _
  rw [natDigitsAux]
  by_cases hn : n < 10
  · simp [hn]
  · have hd : n / 10 < n := Nat.div_lt_self (by omega) (by omega)
    simp only [hn, if_false]
    rw [@natDigitsAux_fuel n (n / 10 + 1) (n / 10) (by omega) (by omega)]
    rfl

theorem natDigits_mem {n c : Nat} (h : c ∈ natDigits n) : 48 ≤ c ∧ c ≤ 57 := by
  induction n using Nat.strong_induction_on with
  | _ n ih =>
    rw [natDigits_unfold] at h
    by_cases hn : n < 10
    · simp [hn] at h
      omega
    · simp only [hn, if_false, List.mem_append, List.mem_singleton] at h
      rcases h with h | h
      · exact ih (n / 10) (Nat.div_lt_self (by omega) (by omega)) h
      · have := Nat.mod_lt n (show 0 < 10 by omega)
        omega

theorem natDigits_ne_nil (n : Nat) : natDigits n ≠ [] := by
  rw [natDigits_unfold]
  by_cases hn : n < 10 <;> simp [hn]

/-- The accumulator form of the decimal read used by `readNatOpt`. -/
def readNat (l : Buf) : Nat := l.foldl (fun a c => 10 * a + (c - 48)) 0

theorem readNat_natDigits (n : Nat) : readNat (natDigits n) = n := by
  induction n using Nat.strong_induction_on with
  | _ n ih =>
    rw [natDigits_unfold]
    by_cases hn : n < 10
    · simp [hn, readNat, List.foldl]
    · simp only [hn, if_false]
      unfold readNat
      rw [List.foldl_append]
      have := ih (n / 10) (Nat.div_lt_self (by omega) (by omega))
      unfold readNat at this
      rw [this]
      simp only [List.foldl]
      omega

theorem natDigits_length_le {n k : Nat} (hk : 1 ≤ k) (h : n < 10 ^ k) :
    (natDigits n).length ≤ k := by
  induction k generalizing n with
  | zero => omega
  | succ k2 ih =>
    rw [natDigits_unfold]
    by_cases hn : n < 10
    · simp [hn]
    · simp only [hn, if_false, List.length_append, List.length_singleton]
      have hk2 : 1 ≤ k2 := by
        by_contra hc
        have : k2 = 0 := by omega
        subst this
        simp [pow_succ, pow_zero] at h
        omega
      have hdiv : n / 10 < 10 ^ k2 := by
        rw [Nat.div_lt_iff_lt_mul (by omega)]
        calc n < 10 ^ (k2 + 1) := h
        _ = 10 ^ k2 * 10 := by ring
      have := ih hk2 hdiv
      omega

theorem readNatOpt_natDigits (n : Nat) : readNatOpt (natDigits n) = some n := by
  unfold readNatOpt
  rw [if_pos]
  · rw [show (natDigits n).foldl (fun a c => 10 * a + (c - 48)) 0 = readNat (natDigits n) from rfl,
      readNat_natDigits]
  · refine ⟨natDigits_ne_nil n, ?_⟩
    rw [List.all_eq_true]
    intro c hc
    have := natDigits_mem hc
    unfold isDigitByte
    simp only [Bool.and_eq_true, decide_eq_true_eq]
    omega

theorem intReprBytes_ofNat (n : Nat) : intReprBytes (n : Int) = natDigits n := by
  unfold intReprBytes
  rw [if_neg (by omega)]
  simp

theorem splitOnByte_not_mem {sep : Nat} {l : Buf} (h : sep ∉ l) : splitOnByte sep l = [l] := by
  induction l with
  | nil => rfl
  | cons x xs ih =>
    have hx : x ≠ sep := by intro hc; exact h (by simp [hc])
    have hxs : sep ∉ xs := by intro hc; exact h (by simp [hc])
    simp only [splitOnByte, hx, if_false]
    rw [ih hxs]

theorem splitOnByte_append {sep : Nat} {x rest : Buf} (h : sep ∉ x) :
    splitOnByte sep (x ++ sep :: rest) = x :: splitOnByte sep rest := by
  induction x with
  | nil => simp [splitOnByte]
  | cons a as ih =>
    have ha : a ≠ sep := by intro hc; exact h (by simp [hc])
    have has : sep ∉ as := by intro hc; exact h (by simp [hc])
    simp only [List.cons_append, splitOnByte, ha, if_false, List.append_eq]
    rw [ih has]

theorem hexVal_hexDigit {d : Nat} (h : d < 16) : hexVal (hexDigit d) = some d := by
  unfold hexVal hexDigit
  by_cases hd : d < 10
  · rw [if_pos hd, if_pos (by omega)]
    congr 1
    omega
  · rw [if_neg hd, if_neg (by omega), if_pos (by omega)]
    congr 1
    omega

theorem hexDecode_encode_append (a r : Buf) (ha : ∀ v ∈ a, v < 256) :
    hexDecode (hexEncodeBytes a ++ r) = (hexDecode r).map (a ++ ·) := by
  induction a with
  | nil =>
    simp only [hexEncodeBytes, List.nil_append]
    cases hexDecode r <;> simp
  | cons v rest ih =>
    have hv : v < 256 := ha v (by simp)
    have hrest : ∀ w ∈ rest, w < 256 := fun w hw => ha w (by simp [hw])
    have hmod : v % 256 = v := Nat.mod_eq_of_lt hv
    simp only [hexEncodeBytes, List.cons_append, hexDecode, hmod, List.append_eq]
    rw [hexVal_hexDigit (by omega), hexVal_hexDigit (Nat.mod_lt v (by omega))]
    rw [ih hrest]
    have hv16 : 16 * (v / 16) + v % 16 = v := by omega
    cases hexDecode r with
    | none => rfl
    | some t =>
      show some ((16 * (v / 16) + v % 16) :: (rest ++ t)) = some (v :: (rest ++ t))
      rw [hv16]

theorem hexDecode_encode (a : Buf) (ha : ∀ v ∈ a, v < 256) :
    hexDecode (hexEncodeBytes a) = some a := by
  have := hexDecode_encode_append a [] ha
  simpa [hexDecode] using this

theorem hexEncodeBytes_length (a : Buf) : (hexEncodeBytes a).length = 2 * a.length := by
  induction a with
  | nil => rfl
  | cons v rest ih => simp [hexEncodeBytes, ih]; omega

theorem hexEncodeBytes_append (a b : Buf) :
    hexEncodeBytes (a ++ b) = hexEncodeBytes a ++ hexEncodeBytes b := by
  induction a with
  | nil => rfl
  | cons v rest ih => simp [hexEncodeBytes, ih]
-- Block C: structured documents and how sign's stages act on them

/-- A structurally well-formed input document: a prefix `A`, the literal
ByteRange placeholder, a middle part `M` (carrying the `/Contents ` tag), the
bracketed signature placeholder of inner width `P.length`, and a suffix `S`. -/
def docOf (A M P S : Buf) : Buf :=
  A ++ byteRangeString ++ M ++ [60] ++ P ++ [62] ++ S

/-- `byteRange[1]` for such a document: the placeholder's `<` position. -/
def b1Of (A M : Buf) : Nat := A.length + byteRangeString.length + M.length

/-- `byteRange[2]` for such a document: just past the placeholder's `>`. -/
def b2Of (A M P : Buf) : Nat := b1Of A M + P.length + 2

/-- The `LocInfo` record `signLocate` produces on such a document. -/
def locOf (A M P S : Buf) : LocInfo :=
  ⟨(A.length : Int), (A.length : Int) + (byteRangeString.length : Int),
   jsIndexOf (docOf A M P S) (strBytes "/Contents ")
     ((A.length : Int) + (byteRangeString.length : Int)),
   (b1Of A M : Int), (b1Of A M : Int) + 1 + (P.length : Int),
   (P.length : Int) + 2, (P.length : Int),
   0, (b1Of A M : Int), (b1Of A M : Int) + (P.length : Int) + 2, (S.length : Int)⟩

/-- The rendered `/ByteRange` numbers `0 b1 b2 len1` for such a document. -/
def numsOf (A M P S : Buf) : Buf :=
  List.intercalate (strBytes " ")
    [natDigits 0, natDigits (b1Of A M), natDigits (b2Of A M P), natDigits S.length]

/-- The actual `/ByteRange [...]` text written for such a document. -/
def abrOf (A M P S : Buf) : Buf :=
  strBytes "/ByteRange [" ++ numsOf A M P S ++ strBytes "]"

/-- The actual ByteRange text right-padded with spaces to placeholder width. -/
def abrPadOf (A M P S : Buf) : Buf :=
  abrOf A M P S ++ List.replicate (byteRangeString.length - (abrOf A M P S).length) 32

/-- The document after the ByteRange rewrite (still with the placeholder). -/
def rewrittenOf (A M P S : Buf) : Buf :=
  A ++ abrPadOf A M P S ++ M ++ [60] ++ P ++ [62] ++ S

/-- The byte sequence that is actually signed: placeholder excised. -/
def contentOf (A M P S : Buf) : Buf := A ++ abrPadOf A M P S ++ M ++ S

theorem docOf_length (A M P S : Buf) :
    (docOf A M P S).length
      = A.length + byteRangeString.length + M.length + 1 + P.length + 1 + S.length := by
  simp [docOf]
  omega

theorem abrPadOf_length (A M P S : Buf)
    (hfit : (abrOf A M P S).length ≤ byteRangeString.length) :
    (abrPadOf A M P S).length = byteRangeString.length := by
  simp [abrPadOf]
  omega

theorem signLocate_structured (A M P S : Buf)
    (hbr : jsIndexOf (docOf A M P S) byteRangeString 0 = (A.length : Int))
    (hct : jsIndexOf (docOf A M P S) (strBytes "<")
        (jsIndexOf (docOf A M P S) (strBytes "/Contents ")
          ((A.length : Int) + (byteRangeString.length : Int)))
      = (b1Of A M : Int))
    (hgt : jsIndexOf (docOf A M P S) (strBytes ">") (b1Of A M : Int)
      = (b1Of A M : Int) + 1 + (P.length : Int)) :
    signLocate (docOf A M P S) = .ok (locOf A M P S) := by
  have hlen := docOf_length A M P S
  simp only [signLocate]
  rw [hbr]
  rw [if_neg (show ¬((A.length : Int) = -1) by omega)]
  rw [hct, hgt]
  unfold locOf
  have hlenInt : ((docOf A M P S).length : Int)
      = (A.length : Int) + (byteRangeString.length : Int) + (M.length : Int) + 1
        + (P.length : Int) + 1 + (S.length : Int) := by
    omega
  have hb1 : ((b1Of A M : Nat) : Int)
      = (A.length : Int) + (byteRangeString.length : Int) + (M.length : Int) := by
    unfold b1Of
    push_cast
    ring
  simp only [Except.ok.injEq, LocInfo.mk.injEq]
  and_intros <;> first
    | trivial
    | omega

theorem jsSlice_left_of (x y : Buf) (e : Int) (he : e = (x.length : Int)) :
    jsSlice (x ++ y) 0 e = x := by
  rw [he]
  exact jsSlice_append_left x y

theorem jsSlice_right_of (x y : Buf) (s e : Int)
    (hs : s = (x.length : Int)) (he : e = ((x ++ y).length : Int)) :
    jsSlice (x ++ y) s e = y := by
  rw [hs, he]
  exact jsSlice_append_right x y

theorem intReprBytes_cast (n : Nat) (i : Int) (h : i = (n : Int)) :
    intReprBytes i = natDigits n := by
  rw [h]
  exact intReprBytes_ofNat n

theorem actualByteRangeBytes_locOf (A M P S : Buf) :
    actualByteRangeBytes (locOf A M P S) = abrOf A M P S := by
  unfold actualByteRangeBytes abrOf numsOf
  rw [show (locOf A M P S).byteRange0 = (0 : Int) from rfl]
  rw [show (locOf A M P S).byteRange1 = ((b1Of A M : Nat) : Int) from rfl]
  rw [show (locOf A M P S).byteRange2
      = (b1Of A M : Int) + (P.length : Int) + 2 from rfl]
  rw [show (locOf A M P S).byteRange3 = ((S.length : Nat) : Int) from rfl]
  rw [intReprBytes_cast 0 0 (by omega), intReprBytes_ofNat (b1Of A M),
    intReprBytes_cast (b2Of A M P) _ (by unfold b2Of; push_cast; ring),
    intReprBytes_ofNat S.length]

theorem signSpliceByteRange_structured (A M P S : Buf)
    (hfit : (abrOf A M P S).length ≤ byteRangeString.length) :
    signSpliceByteRange (docOf A M P S) (locOf A M P S) = .ok (rewrittenOf A M P S) := by
  rw [show signSpliceByteRange (docOf A M P S) (locOf A M P S)
      = (match jsRepeatList (strBytes " ")
          ((byteRangeString.length : Int) - ((abrOf A M P S).length : Int)) with
        | .error m => .error (.js m)
        | .ok pad =>
          .ok (jsSlice (docOf A M P S) 0 (locOf A M P S).byteRangePos
                ++ (abrOf A M P S ++ pad)
                ++ jsSlice (docOf A M P S) (locOf A M P S).byteRangeEnd
                    ((docOf A M P S).length : Int))) from by
    unfold signSpliceByteRange
    rw [actualByteRangeBytes_locOf]]
  rw [show jsRepeatList (strBytes " ")
      ((byteRangeString.length : Int) - ((abrOf A M P S).length : Int))
      = .ok (List.flatten (List.replicate
          ((byteRangeString.length : Int) - ((abrOf A M P S).length : Int)).toNat
          (strBytes " "))) from by
    unfold jsRepeatList
    rw [if_neg (by omega)]]
  rw [show strBytes " " = [32] from rfl]
  rw [flatten_replicate_singleton]
  rw [show ((byteRangeString.length : Int) - ((abrOf A M P S).length : Int)).toNat
      = byteRangeString.length - (abrOf A M P S).length by omega]
  rw [show (locOf A M P S).byteRangePos = ((A.length : Nat) : Int) from rfl]
  rw [show docOf A M P S = A ++ (byteRangeString ++ M ++ [60] ++ P ++ [62] ++ S) from by
    unfold docOf; simp [List.append_assoc]]
  rw [jsSlice_left_of A _ _ rfl]
  rw [show A ++ (byteRangeString ++ M ++ [60] ++ P ++ [62] ++ S)
      = (A ++ byteRangeString) ++ (M ++ [60] ++ P ++ [62] ++ S) from by
    simp [List.append_assoc]]
  rw [show (locOf A M P S).byteRangeEnd = (A.length : Int) + (byteRangeString.length : Int)
    from rfl]
  rw [jsSlice_right_of (A ++ byteRangeString) (M ++ [60] ++ P ++ [62] ++ S) _ _
    (by simp) (by simp)]
  unfold rewrittenOf abrPadOf
  simp [List.append_assoc]

theorem signExcisePlaceholder_structured (A M P S : Buf)
    (hfit : (abrOf A M P S).length ≤ byteRangeString.length) :
    signExcisePlaceholder (rewrittenOf A M P S) (locOf A M P S) = contentOf A M P S := by
  have hw := abrPadOf_length A M P S hfit
  unfold signExcisePlaceholder
  rw [show (locOf A M P S).byteRange1 = ((b1Of A M : Nat) : Int) from rfl]
  rw [show (locOf A M P S).byteRange2 = (b1Of A M : Int) + (P.length : Int) + 2 from rfl]
  rw [show (locOf A M P S).byteRange3 = ((S.length : Nat) : Int) from rfl]
  rw [show rewrittenOf A M P S = (A ++ abrPadOf A M P S ++ M) ++ ([60] ++ P ++ [62] ++ S)
    from by unfold rewrittenOf; simp [List.append_assoc]]
  rw [jsSlice_left_of (A ++ abrPadOf A M P S ++ M) _ _
    (by simp [hw, b1Of]; ring)]
  rw [show (A ++ abrPadOf A M P S ++ M) ++ ([60] ++ P ++ [62] ++ S)
      = (A ++ abrPadOf A M P S ++ M ++ [60] ++ P ++ [62]) ++ S from by
    simp [List.append_assoc]]
  rw [jsSlice_right_of (A ++ abrPadOf A M P S ++ M ++ [60] ++ P ++ [62]) S _ _
    (by simp [hw, b1Of]; ring) (by simp [hw, b1Of]; ring)]
  unfold contentOf
  simp [List.append_assoc]
-- Block D: the full structured sign equation

/-- The DER signature bytes produced for a structured document. -/
def rawOf (tk : SignToolkit) (A M P S : Buf) (bags : List CertBag)
    (cert : Certificate) (key : PrivateKey) : Buf :=
  tk.p7BuildSignedDataDer (contentOf A M P S) (bags.map CertBag.cert) cert key

/-- The number of padding zero bytes appended to the hex signature. -/
def padCountOf (tk : SignToolkit) (A M P S : Buf) (bags : List CertBag)
    (cert : Certificate) (key : PrivateKey) : Nat :=
  P.length / 2 - (rawOf tk A M P S bags cert key).length

/-- The final signed buffer for a structured document. -/
def outOf (tk : SignToolkit) (A M P S : Buf) (bags : List CertBag)
    (cert : Certificate) (key : PrivateKey) : Buf :=
  A ++ abrPadOf A M P S ++ M
    ++ [60] ++ hexEncodeBytes (rawOf tk A M P S bags cert key)
    ++ hexEncodeBytes (List.replicate (padCountOf tk A M P S bags cert key) 0)
    ++ [62] ++ S

theorem signEmbedSignature_structured (tk : SignToolkit) (A M P S : Buf)
    (bags : List CertBag) (cert : Certificate) (key : PrivateKey)
    (hfit : (abrOf A M P S).length ≤ byteRangeString.length)
    (hsize : (rawOf tk A M P S bags cert key).length * 2 ≤ P.length) :
    signEmbedSignature tk (contentOf A M P S) (locOf A M P S)
        (bags.map CertBag.cert) cert key
      = .ok (outOf tk A M P S bags cert key,
        hexEncodeBytes (rawOf tk A M P S bags cert key)) := by
  have hw := abrPadOf_length A M P S hfit
  simp only [signEmbedSignature]
  rw [show tk.p7BuildSignedDataDer (contentOf A M P S) (bags.map CertBag.cert) cert key
      = rawOf tk A M P S bags cert key from rfl]
  rw [show (locOf A M P S).placeholderLength = (P.length : Int) from rfl]
  rw [if_neg (by omega)]
  rw [show jsRepeatList [0]
      ((P.length : Int) / 2 - ((rawOf tk A M P S bags cert key).length : Int))
      = .ok (List.flatten (List.replicate
          ((P.length : Int) / 2 - ((rawOf tk A M P S bags cert key).length : Int)).toNat
          [0])) from by
    unfold jsRepeatList
    rw [if_neg (by omega)]]
  rw [flatten_replicate_singleton]
  rw [show ((P.length : Int) / 2 - ((rawOf tk A M P S bags cert key).length : Int)).toNat
      = padCountOf tk A M P S bags cert key from by
    unfold padCountOf
    omega]
  rw [show (locOf A M P S).byteRange1 = ((b1Of A M : Nat) : Int) from rfl]
  rw [show contentOf A M P S = (A ++ abrPadOf A M P S ++ M) ++ S from by
    unfold contentOf; simp [List.append_assoc]]
  rw [jsSlice_left_of (A ++ abrPadOf A M P S ++ M) S _ (by simp [hw, b1Of]; ring)]
  rw [jsSlice_right_of (A ++ abrPadOf A M P S ++ M) S _ _
    (by simp [hw, b1Of]; ring) rfl]
  unfold outOf
  simp [List.append_assoc]

theorem sign_structured (tk : SignToolkit) (A M P S p12b : Buf) (opts : SignOptions)
    (bags : List CertBag) (keys : List PrivateKey) (key : PrivateKey) (cert : Certificate)
    (htrim : removeTrailingNewLine (docOf A M P S) = docOf A M P S)
    (hbr : jsIndexOf (docOf A M P S) byteRangeString 0 = (A.length : Int))
    (hct : jsIndexOf (docOf A M P S) (strBytes "<")
        (jsIndexOf (docOf A M P S) (strBytes "/Contents ")
          ((A.length : Int) + (byteRangeString.length : Int)))
      = (b1Of A M : Int))
    (hgt : jsIndexOf (docOf A M P S) (strBytes ">") (b1Of A M : Int)
      = (b1Of A M : Int) + 1 + (P.length : Int))
    (hfit : (abrOf A M P S).length ≤ byteRangeString.length)
    (hp12 : tk.pkcs12FromDer p12b opts.asn1StrictParsing opts.passphrase = .ok ⟨bags, keys⟩)
    (hkey : keys.head? = some key)
    (hcert : selectCertificate bags key = some cert)
    (hsize : (rawOf tk A M P S bags cert key).length * 2 ≤ P.length) :
    sign tk (docOf A M P S) p12b opts
      = .ok (outOf tk A M P S bags cert key,
        hexEncodeBytes (rawOf tk A M P S bags cert key)) := by
  unfold sign
  rw [htrim]
  simp only [signAfterTrim, signLocate_structured A M P S hbr hct hgt,
    signSpliceByteRange_structured A M P S hfit, hp12, hkey, hcert,
    signExcisePlaceholder_structured A M P S hfit]
  exact signEmbedSignature_structured tk A M P S bags cert key hfit hsize
-- Block E: extraction from a signed structured document

theorem jsSlice_mid_of (x y z : Buf) (s e : Int)
    (hs : s = (x.length : Int)) (he : e = (x.length : Int) + (y.length : Int)) :
    jsSlice (x ++ y ++ z) s e = y := by
  rw [hs, he]
  rw [show (x.length : Int) + (y.length : Int) = ((x.length + y.length : Nat) : Int) by
    push_cast; ring]
  exact jsSlice_append_mid x y z

theorem intercalate_four (x : Nat) (a b c d : Buf) :
    List.intercalate [x] [a, b, c, d] = a ++ x :: (b ++ x :: (c ++ x :: d)) := by
  simp [List.intercalate, List.intersperse]

theorem parseNums_numsOf (A M P S : Buf) :
    parseNums (numsOf A M P S) = some (0, b1Of A M, b2Of A M P, S.length) := by
  have hdig : ∀ n : Nat, (32 : Nat) ∉ natDigits n := by
    intro n hc
    have := natDigits_mem hc
    omega
  have hsplit : splitOnByte 32 (numsOf A M P S)
      = [natDigits 0, natDigits (b1Of A M), natDigits (b2Of A M P), natDigits S.length] := by
    unfold numsOf
    rw [show strBytes " " = [32] from rfl, intercalate_four]
    rw [splitOnByte_append (hdig 0), splitOnByte_append (hdig _), splitOnByte_append (hdig _),
      splitOnByte_not_mem (hdig _)]
  unfold parseNums
  rw [hsplit]
  simp only [List.map]
  rw [readNatOpt_natDigits, readNatOpt_natDigits, readNatOpt_natDigits, readNatOpt_natDigits]

theorem extractSignature_outOf (tk : SignToolkit) (A M P S : Buf)
    (bags : List CertBag) (cert : Certificate) (key : PrivateKey)
    (hfit : (abrOf A M P S).length ≤ byteRangeString.length)
    (heven : P.length % 2 = 0)
    (hsize : (rawOf tk A M P S bags cert key).length * 2 ≤ P.length)
    (hraw : ∀ v ∈ rawOf tk A M P S bags cert key, v < 256)
    (hvbr : jsIndexOf (outOf tk A M P S bags cert key) (strBytes "/ByteRange [") 0
      = (A.length : Int))
    (hvend : jsIndexOf (outOf tk A M P S bags cert key) (strBytes "]") (A.length : Int)
      = (A.length : Int) + 12 + ((numsOf A M P S).length : Int)) :
    extractSignature (outOf tk A M P S bags cert key)
      = some (rawOf tk A M P S bags cert key
              ++ List.replicate (padCountOf tk A M P S bags cert key) 0,
          contentOf A M P S) := by
  have hw := abrPadOf_length A M P S hfit
  have hbs : byteRangeString.length = 50 := rfl
  have hhdr : (strBytes "/ByteRange [").length = 12 := rfl
  have hHRlen : (hexEncodeBytes (rawOf tk A M P S bags cert key)).length
      = 2 * (rawOf tk A M P S bags cert key).length := hexEncodeBytes_length _
  have hHZlen : (hexEncodeBytes (List.replicate (padCountOf tk A M P S bags cert key) 0)).length
      = 2 * (padCountOf tk A M P S bags cert key) := by
    rw [hexEncodeBytes_length, List.length_replicate]
  have hpad : (padCountOf tk A M P S bags cert key)
      = P.length / 2 - (rawOf tk A M P S bags cert key).length := rfl
  have eNums : jsSlice (outOf tk A M P S bags cert key)
      ((A.length : Int) + 12) ((A.length : Int) + 12 + ((numsOf A M P S).length : Int))
      = numsOf A M P S := by
    rw [show outOf tk A M P S bags cert key
        = (A ++ strBytes "/ByteRange [") ++ numsOf A M P S
          ++ (strBytes "]"
              ++ List.replicate (byteRangeString.length - (abrOf A M P S).length) 32
              ++ M ++ [60] ++ hexEncodeBytes (rawOf tk A M P S bags cert key)
              ++ hexEncodeBytes (List.replicate (padCountOf tk A M P S bags cert key) 0)
              ++ [62] ++ S) from by
      simp [outOf, abrPadOf, abrOf, List.append_assoc]]
    exact jsSlice_mid_of _ _ _ _ _
      (by rw [List.length_append, hhdr]; push_cast; ring)
      (by rw [List.length_append, hhdr]; push_cast; ring)
  have eSpan0 : jsSlice (outOf tk A M P S bags cert key)
      ((0 : Nat) : Int) (((0 : Nat) : Int) + ((b1Of A M : Nat) : Int))
      = A ++ abrPadOf A M P S ++ M := by
    rw [show outOf tk A M P S bags cert key
        = (A ++ abrPadOf A M P S ++ M)
          ++ ([60] ++ hexEncodeBytes (rawOf tk A M P S bags cert key)
              ++ hexEncodeBytes (List.replicate (padCountOf tk A M P S bags cert key) 0)
              ++ [62] ++ S) from by
      simp [outOf, List.append_assoc]]
    exact jsSlice_left_of _ _ _ (by
      simp only [List.length_append, List.length_singleton, hw, hbs]
      unfold b1Of
      push_cast
      omega)
  have eSpan1 : jsSlice (outOf tk A M P S bags cert key)
      ((b2Of A M P : Nat) : Int) (((b2Of A M P : Nat) : Int) + ((S.length : Nat) : Int))
      = S := by
    rw [show outOf tk A M P S bags cert key
        = (A ++ abrPadOf A M P S ++ M ++ [60]
            ++ hexEncodeBytes (rawOf tk A M P S bags cert key)
            ++ hexEncodeBytes (List.replicate (padCountOf tk A M P S bags cert key) 0)
            ++ [62]) ++ S from by
      simp [outOf, List.append_assoc]]
    refine jsSlice_right_of _ S _ _ ?_ ?_
    · simp only [List.length_append, hHRlen, hHZlen, hw, hbs, List.length_singleton]
      unfold b2Of b1Of
      push_cast
      omega
    · simp only [List.length_append, hHRlen, hHZlen, hw, hbs, List.length_singleton]
      unfold b2Of b1Of
      push_cast
      omega
  have eHex : jsSlice (outOf tk A M P S bags cert key)
      (((0 : Nat) : Int) + ((b1Of A M : Nat) : Int) + 1) (((b2Of A M P : Nat) : Int) - 1)
      = hexEncodeBytes (rawOf tk A M P S bags cert key)
        ++ hexEncodeBytes (List.replicate (padCountOf tk A M P S bags cert key) 0) := by
    rw [show outOf tk A M P S bags cert key
        = (A ++ abrPadOf A M P S ++ M ++ [60])
          ++ (hexEncodeBytes (rawOf tk A M P S bags cert key)
              ++ hexEncodeBytes (List.replicate (padCountOf tk A M P S bags cert key) 0))
          ++ ([62] ++ S) from by
      simp [outOf, List.append_assoc]]
    refine jsSlice_mid_of _ _ _ _ _ ?_ ?_
    · simp only [List.length_append, hw, hbs, List.length_singleton]
      unfold b1Of
      push_cast
      omega
    · simp only [List.length_append, hHRlen, hHZlen, hw, hbs, List.length_singleton]
      unfold b2Of b1Of
      push_cast
      omega
  have eDecode : hexDecode (hexEncodeBytes (rawOf tk A M P S bags cert key)
        ++ hexEncodeBytes (List.replicate (padCountOf tk A M P S bags cert key) 0))
      = some (rawOf tk A M P S bags cert key
          ++ List.replicate (padCountOf tk A M P S bags cert key) 0) := by
    rw [hexDecode_encode_append _ _ hraw]
    rw [hexDecode_encode _ (by
      intro v hv
      rw [List.eq_of_mem_replicate hv]
      omega)]
    rfl
  simp only [extractSignature]
  rw [hvbr]
  rw [if_neg (by omega)]
  rw [hvend]
  rw [if_neg (by omega)]
  rw [eNums]
  simp only [parseNums_numsOf]
  rw [eHex]
  simp only [eDecode]
  rw [eSpan0, eSpan1]
  rw [show contentOf A M P S = A ++ abrPadOf A M P S ++ M ++ S from rfl]
-- Block F: verify on a well-formed signed document

theorem verifyTry_ok (vt : VerifyToolkit) (pdf sig sd : Buf) (m : ParsedP7)
    (c0 : Certificate) (cs : List Certificate)
    (hex : extractSignature pdf = some (sig, sd))
    (hparse : vt.parseSignedData sig = some m)
    (hcerts : m.certs = c0 :: cs)
    (hverify : vt.cryptoVerify m.hashAlg (vt.derEncodeAttrSet m.attrs) (vt.certToPem c0) m.sig
      = true)
    (hdig : m.msgDigestValue = some (vt.cryptoHash m.hashAlg sd)) :
    verifyTry vt pdf = .ok ⟨true, none⟩ := by
  simp only [verifyTry, hex, hparse, hcerts, List.head?_cons, hverify, hdig]
  simp

theorem verifyBuf_of_verifyTry_ok {vt : VerifyToolkit} {pdf : Buf}
    (h : verifyTry vt pdf = .ok ⟨true, none⟩) :
    verifyBuf vt pdf = ⟨true, none⟩ := by
  unfold verifyBuf
  rw [h]
-- Block G: concrete instances used by witnesses and counterexamples

-- Decidable equality for `Except` values, used to evaluate results.
deriving instance DecidableEq for Except

/-- A toy certificate whose public key matches `keyToy`. -/
def certToy : Certificate := ⟨5, 3, 7⟩

/-- The toy private key. -/
def keyToy : PrivateKey := ⟨5, 3⟩

/-- A toy signing toolkit: the container parses to one matching certificate
bag and one key bag, and the DER SignedData serialization is the two-byte
blob `[1, 2]`. -/
def tkToy : SignToolkit := ⟨fun _ _ _ => .ok ⟨[⟨certToy⟩], [keyToy]⟩, fun _ _ _ _ => [1, 2]⟩

/-- Witness document pieces: empty prefix. -/
def AW : Buf := []

/-- Witness middle part carrying the `/Contents ` tag. -/
def MW : Buf := strBytes "/Contents "

/-- An even-width (6 hex chars) signature placeholder. -/
def PW : Buf := List.replicate 6 48

/-- An odd-width (7 hex chars) signature placeholder. -/
def PWodd : Buf := List.replicate 7 48

/-- Witness document suffix. -/
def SW : Buf := strBytes "zz"

/-- The bytes actually signed for the even-width witness document. -/
def contentEvenW : Buf := contentOf AW MW PW SW

/-- The bytes actually signed for the odd-width document. -/
def contentOddW : Buf := contentOf AW MW PWodd SW

/-- A sound toy verification toolkit for the even-width witness document: the
digest is the identity and the parsed message carries as its message-digest
attribute the digest of the bytes that were actually signed. -/
def vtToyEven : VerifyToolkit :=
  ⟨fun b => some ⟨b, [], "SHA256", [certToy], some contentEvenW⟩,
   fun a => a, fun _ => "PEM", fun _ _ _ _ => true, fun _ b => b⟩

/-- The same sound toy verification toolkit for the odd-width document: the
message-digest attribute holds the digest (identity) of the bytes that were
actually signed, so any failure it reports is the code's doing. -/
def vtToyOdd : VerifyToolkit :=
  ⟨fun b => some ⟨b, [], "SHA256", [certToy], some contentOddW⟩,
   fun a => a, fun _ => "PEM", fun _ _ _ _ => true, fun _ b => b⟩

example : (1 : Nat) = 1 := rfl
-- Claim C2

/-- C2 (corrected, amended with even width): for every structured document
whose literal ByteRange/Contents placeholder is found where it stands, whose
reserved hex width `P.length` is EVEN and large enough for the DER signature,
and every PKCS#12 container parsing to a certificate matching its private key
(with a verification toolkit that is sound on the produced signature: it
re-parses the embedded DER bytes, its signature check accepts them and the
message-digest attribute equals the digest of the signed bytes),
`verify (sign doc p12)` succeeds with `verified = true`. -/
theorem roundTrip_even_verified
    (tk : SignToolkit) (vt : VerifyToolkit) (A M P S p12b : Buf) (opts : SignOptions)
    (bags : List CertBag) (keys : List PrivateKey) (key : PrivateKey) (cert : Certificate)
    (m : ParsedP7) (c0 : Certificate) (cs : List Certificate)
    (htrim : removeTrailingNewLine (docOf A M P S) = docOf A M P S)
    (hbr : jsIndexOf (docOf A M P S) byteRangeString 0 = (A.length : Int))
    (hct : jsIndexOf (docOf A M P S) (strBytes "<")
        (jsIndexOf (docOf A M P S) (strBytes "/Contents ")
          ((A.length : Int) + (byteRangeString.length : Int)))
      = (b1Of A M : Int))
    (hgt : jsIndexOf (docOf A M P S) (strBytes ">") (b1Of A M : Int)
      = (b1Of A M : Int) + 1 + (P.length : Int))
    (hfit : (abrOf A M P S).length ≤ byteRangeString.length)
    (hp12 : tk.pkcs12FromDer p12b opts.asn1StrictParsing opts.passphrase = .ok ⟨bags, keys⟩)
    (hkey : keys.head? = some key)
    (hcert : selectCertificate bags key = some cert)
    (hsize : (rawOf tk A M P S bags cert key).length * 2 ≤ P.length)
    (heven : P.length % 2 = 0)
    (hraw : ∀ v ∈ rawOf tk A M P S bags cert key, v < 256)
    (hvbr : jsIndexOf (outOf tk A M P S bags cert key) (strBytes "/ByteRange [") 0
      = (A.length : Int))
    (hvend : jsIndexOf (outOf tk A M P S bags cert key) (strBytes "]") (A.length : Int)
      = (A.length : Int) + 12 + ((numsOf A M P S).length : Int))
    (hparse : vt.parseSignedData (rawOf tk A M P S bags cert key
        ++ List.replicate (padCountOf tk A M P S bags cert key) 0) = some m)
    (hcerts : m.certs = c0 :: cs)
    (hverify : vt.cryptoVerify m.hashAlg (vt.derEncodeAttrSet m.attrs) (vt.certToPem c0) m.sig
      = true)
    (hdig : m.msgDigestValue = some (vt.cryptoHash m.hashAlg (contentOf A M P S))) :
    sign tk (docOf A M P S) p12b opts
        = .ok (outOf tk A M P S bags cert key, hexEncodeBytes (rawOf tk A M P S bags cert key))
      ∧ verify vt (JsValue.buffer (outOf tk A M P S bags cert key)) = .ok ⟨true, none⟩ := by
  constructor
  · exact sign_structured tk A M P S p12b opts bags keys key cert
      htrim hbr hct hgt hfit hp12 hkey hcert hsize
  · have hex := extractSignature_outOf tk A M P S bags cert key hfit heven hsize hraw hvbr hvend
    have hok := verifyTry_ok vt (outOf tk A M P S bags cert key) _ _ m c0 cs hex hparse
      hcerts hverify hdig
    show Except.ok (verifyBuf vt (outOf tk A M P S bags cert key)) = _
    rw [verifyBuf_of_verifyTry_ok hok]

/-- Witness for C2's theorem: a concrete even-width document, toy container
and sound toy verification toolkit; every hypothesis is discharged by
computation. -/
theorem roundTrip_even_verified_witness :
    sign tkToy (docOf AW MW PW SW) [] defaultOptions
        = .ok (outOf tkToy AW MW PW SW [⟨certToy⟩] certToy keyToy,
          hexEncodeBytes (rawOf tkToy AW MW PW SW [⟨certToy⟩] certToy keyToy))
      ∧ verify vtToyEven (JsValue.buffer (outOf tkToy AW MW PW SW [⟨certToy⟩] certToy keyToy))
        = .ok ⟨true, none⟩ :=
  roundTrip_even_verified tkToy vtToyEven AW MW PW SW [] defaultOptions
    [⟨certToy⟩] [keyToy] keyToy certToy
    ⟨[1, 2, 0], [], "SHA256", [certToy], some contentEvenW⟩ certToy []
    (by decide) (by decide) (by decide) (by decide) (by decide) (by decide) (by decide)
    (by decide) (by decide) (by decide) (by decide) (by decide) (by decide) (by decide)
    (by decide) (by decide) (by decide)

/-- Counterexample to C2 as stated: an odd reserved hex width (7) that is
large enough for the 4-hex-char DER signature, a valid toy container and the
sound toy verification toolkit (identity digest over the bytes that were
actually signed) — yet the round trip returns `verified = false`, because
`sign` inserts only `2 * (7 / 2) = 6` payload characters while the written
`/ByteRange` still claims the full placeholder width. -/
theorem roundTrip_odd_counterexample :
    Except.map (fun p => verify vtToyOdd (JsValue.buffer p.1))
        (sign tkToy (docOf AW MW PWodd SW) [] defaultOptions)
      = .ok (.ok ⟨false, some genericVerifyFailure⟩)
    ∧ 2 * (rawOf tkToy AW MW PWodd SW [⟨certToy⟩] certToy keyToy).length ≤ PWodd.length := by
  decide
-- Claim C5

/-- C5 (confirmed): on any signing run reaching the capacity check with a DER
signature whose hex-encoded length (`raw.length * 2`) exceeds the reserved
`placeholderLength`, `sign` fails with the `TYPE_INPUT` error
"Signature exceeds placeholder length: ..." and returns no output buffer at
all (the result is an error, not a partially written buffer). -/
theorem sign_placeholder_overflow
    (tk : SignToolkit) (pdfBuffer pdf p12b : Buf) (opts : SignOptions)
    (loc : LocInfo) (pdf1 : Buf) (p12 : Pkcs12Parsed)
    (key : PrivateKey) (cert : Certificate)
    (htrim : removeTrailingNewLine pdfBuffer = pdf)
    (hloc : signLocate pdf = .ok loc)
    (hsp : signSpliceByteRange pdf loc = .ok pdf1)
    (hp12 : tk.pkcs12FromDer p12b opts.asn1StrictParsing opts.passphrase = .ok p12)
    (hkey : p12.keyBags.head? = some key)
    (hcert : selectCertificate p12.certBags key = some cert)
    (hbig : (((tk.p7BuildSignedDataDer (signExcisePlaceholder pdf1 loc)
        (p12.certBags.map CertBag.cert) cert key).length * 2 : Nat) : Int)
      > loc.placeholderLength) :
    sign tk pdfBuffer p12b opts
      = .error (.signPdf ⟨sigTooBigMsg
          (tk.p7BuildSignedDataDer (signExcisePlaceholder pdf1 loc)
            (p12.certBags.map CertBag.cert) cert key).length loc.placeholderLength,
        SignPdfErrorType.TYPE_INPUT⟩) := by
  unfold sign
  rw [htrim]
  simp only [signAfterTrim, hloc, hsp, hp12, hkey, hcert, signEmbedSignature]
  rw [if_pos hbig]

/-- A toy toolkit producing a 9-byte DER signature (18 hex chars). -/
def tkBig : SignToolkit :=
  ⟨fun _ _ _ => .ok ⟨[⟨certToy⟩], [keyToy]⟩, fun _ _ _ _ => List.replicate 9 1⟩

/-- Witness for C5's theorem: an 18-hex-char signature against a 6-char
placeholder fails with the exact `TYPE_INPUT` error. -/
theorem sign_placeholder_overflow_witness :
    sign tkBig (docOf AW MW PW SW) [] defaultOptions
      = .error (.signPdf ⟨sigTooBigMsg 9 6, SignPdfErrorType.TYPE_INPUT⟩) :=
  sign_placeholder_overflow tkBig (docOf AW MW PW SW) (docOf AW MW PW SW) []
    defaultOptions (locOf AW MW PW SW) (rewrittenOf AW MW PW SW)
    ⟨[⟨certToy⟩], [keyToy]⟩ keyToy certToy
    (by decide) (by decide) (by decide) (by decide) (by decide) (by decide) (by decide)
-- Claim C8

/-- Width (in characters) of the payload `sign` put between the first `<` and
the following `>` of a buffer. -/
def insertedPayloadWidth (out : Buf) : Int :=
  jsIndexOf out [62] (jsIndexOf out [60] 0) - jsIndexOf out [60] 0 - 1

/-- C8 (corrected, amended): on every successful run, the final signed buffer
is the rewritten (placeholder-excised) buffer with a single insertion
`<payload>` at `byteRange[1]`, where the payload is the hex-encoded DER
signature right-padded with zero bytes encoded as hex `00`.  The payload is
exactly `2 * (placeholderLength / 2)` characters: equal to
`placeholderLength` when the reserved width is even, and `placeholderLength
- 1` when it is odd (the JS float division `placeholderLength / 2` is
truncated by `String.prototype.repeat`). -/
theorem sign_embed_layout
    (tk : SignToolkit) (pdfBuffer pdf p12b : Buf) (opts : SignOptions)
    (loc : LocInfo) (pdf1 : Buf) (p12 : Pkcs12Parsed)
    (key : PrivateKey) (cert : Certificate)
    (htrim : removeTrailingNewLine pdfBuffer = pdf)
    (hloc : signLocate pdf = .ok loc)
    (hsp : signSpliceByteRange pdf loc = .ok pdf1)
    (hp12 : tk.pkcs12FromDer p12b opts.asn1StrictParsing opts.passphrase = .ok p12)
    (hkey : p12.keyBags.head? = some key)
    (hcert : selectCertificate p12.certBags key = some cert)
    (hfitsig : (((tk.p7BuildSignedDataDer (signExcisePlaceholder pdf1 loc)
        (p12.certBags.map CertBag.cert) cert key).length * 2 : Nat) : Int)
      ≤ loc.placeholderLength) :
    sign tk pdfBuffer p12b opts
        = .ok (jsSlice (signExcisePlaceholder pdf1 loc) 0 loc.byteRange1
            ++ ((60 : Nat) ::
                (hexEncodeBytes (tk.p7BuildSignedDataDer (signExcisePlaceholder pdf1 loc)
                    (p12.certBags.map CertBag.cert) cert key)
                  ++ hexEncodeBytes (List.replicate
                      ((loc.placeholderLength / 2
                        - ((tk.p7BuildSignedDataDer (signExcisePlaceholder pdf1 loc)
                            (p12.certBags.map CertBag.cert) cert key).length : Int)).toNat) 0))
              ++ [62])
            ++ jsSlice (signExcisePlaceholder pdf1 loc) loc.byteRange1
                ((signExcisePlaceholder pdf1 loc).length : Int),
          hexEncodeBytes (tk.p7BuildSignedDataDer (signExcisePlaceholder pdf1 loc)
            (p12.certBags.map CertBag.cert) cert key))
      ∧ (hexEncodeBytes (tk.p7BuildSignedDataDer (signExcisePlaceholder pdf1 loc)
            (p12.certBags.map CertBag.cert) cert key)
          ++ hexEncodeBytes (List.replicate
              ((loc.placeholderLength / 2
                - ((tk.p7BuildSignedDataDer (signExcisePlaceholder pdf1 loc)
                    (p12.certBags.map CertBag.cert) cert key).length : Int)).toNat) 0)).length
        = 2 * (loc.placeholderLength.toNat / 2)
      ∧ (loc.placeholderLength % 2 = 0 →
          (hexEncodeBytes (tk.p7BuildSignedDataDer (signExcisePlaceholder pdf1 loc)
              (p12.certBags.map CertBag.cert) cert key)
            ++ hexEncodeBytes (List.replicate
                ((loc.placeholderLength / 2
                  - ((tk.p7BuildSignedDataDer (signExcisePlaceholder pdf1 loc)
                      (p12.certBags.map CertBag.cert) cert key).length : Int)).toNat) 0)).length
          = loc.placeholderLength.toNat) := by
  have hlen : ∀ z : Buf,
      (hexEncodeBytes (tk.p7BuildSignedDataDer (signExcisePlaceholder pdf1 loc)
          (p12.certBags.map CertBag.cert) cert key) ++ hexEncodeBytes z).length
        = 2 * (tk.p7BuildSignedDataDer (signExcisePlaceholder pdf1 loc)
            (p12.certBags.map CertBag.cert) cert key).length + 2 * z.length := by
    intro z
    rw [List.length_append, hexEncodeBytes_length, hexEncodeBytes_length]
  refine ⟨?_, ?_, ?_⟩
  · unfold sign
    rw [htrim]
    simp only [signAfterTrim, hloc, hsp, hp12, hkey, hcert, signEmbedSignature]
    rw [if_neg (by omega)]
    rw [show jsRepeatList [0] (loc.placeholderLength / 2
        - ((tk.p7BuildSignedDataDer (signExcisePlaceholder pdf1 loc)
            (p12.certBags.map CertBag.cert) cert key).length : Int))
        = .ok (List.flatten (List.replicate
            ((loc.placeholderLength / 2
              - ((tk.p7BuildSignedDataDer (signExcisePlaceholder pdf1 loc)
                  (p12.certBags.map CertBag.cert) cert key).length : Int)).toNat) [0])) from by
      unfold jsRepeatList
      rw [if_neg (by omega)]]
    rw [flatten_replicate_singleton]
  · rw [hlen, List.length_replicate]
    omega
  · intro hev
    rw [hlen, List.length_replicate]
    omega

/-- Witness for C8's theorem at the concrete even-width document. -/
theorem sign_embed_layout_witness :
    sign tkToy (docOf AW MW PW SW) [] defaultOptions
        = .ok (jsSlice (signExcisePlaceholder (rewrittenOf AW MW PW SW) (locOf AW MW PW SW)) 0
              (locOf AW MW PW SW).byteRange1
            ++ ((60 : Nat) :: (hexEncodeBytes [1, 2] ++ hexEncodeBytes (List.replicate 1 0)) ++ [62])
            ++ jsSlice (signExcisePlaceholder (rewrittenOf AW MW PW SW) (locOf AW MW PW SW))
                (locOf AW MW PW SW).byteRange1
                ((signExcisePlaceholder (rewrittenOf AW MW PW SW) (locOf AW MW PW SW)).length : Int),
          hexEncodeBytes [1, 2])
      ∧ (hexEncodeBytes [1, 2] ++ hexEncodeBytes (List.replicate 1 0)).length = 2 * (6 / 2)
      ∧ ((6 : Int) % 2 = 0 →
          (hexEncodeBytes [1, 2] ++ hexEncodeBytes (List.replicate 1 0)).length = 6) :=
  sign_embed_layout tkToy (docOf AW MW PW SW) (docOf AW MW PW SW) [] defaultOptions
    (locOf AW MW PW SW) (rewrittenOf AW MW PW SW) ⟨[⟨certToy⟩], [keyToy]⟩ keyToy certToy
    (by decide) (by decide) (by decide) (by decide) (by decide) (by decide) (by decide)

/-- Counterexample to C8 as stated: with an odd reserved width of 7 the
inserted payload is 6 characters, not `placeholderLength = 7`. -/
theorem sign_odd_payload_counterexample :
    Except.map (fun p => insertedPayloadWidth p.1)
        (sign tkToy (docOf AW MW PWodd SW) [] defaultOptions) = .ok 6
    ∧ Except.map LocInfo.placeholderLength (signLocate (docOf AW MW PWodd SW)) = .ok 7 := by
  decide
-- Toolkits for claim C4

/-- A container with two certificates that both match the key, and a
signature serialization that reveals which certificate was used (its
serial). -/
def tkReveal : SignToolkit :=
  ⟨fun _ _ _ => .ok ⟨[⟨certToy⟩, ⟨⟨5, 3, 8⟩⟩], [keyToy]⟩,
   fun _ _ cert _ => [cert.serial]⟩

/-- A container whose only certificate does not match the key. -/
def tkNoMatch : SignToolkit :=
  ⟨fun _ _ _ => .ok ⟨[⟨⟨9, 9, 1⟩⟩], [keyToy]⟩, fun _ _ _ _ => [1, 2]⟩
-- Claim C4

theorem find?_append_cases {α : Type} (l1 l2 : List α) (p : α → Bool) :
    (l1 ++ l2).find? p = match l1.find? p with
      | some x => some x
      | none => l2.find? p := by
  induction l1 with
  | nil => simp
  | cons a l ih =>
    by_cases hpa : p a = true
    · simp [List.find?_cons_of_pos _ hpa]
    · have hpa2 : p a = false := by
        cases h : p a
        · rfl
        · exact absurd h hpa
      simp only [List.cons_append, List.find?_cons, hpa2]
      exact ih

theorem selectCertificate_eq_last_match (bags : List CertBag) (k : PrivateKey) :
    selectCertificate bags k = (bags.reverse.find? (keyMatches k)).map CertBag.cert := by
  suffices h : ∀ acc : Option Certificate,
      bags.foldl (fun certificate bag =>
        if k.n = bag.cert.publicKeyN ∧ k.e = bag.cert.publicKeyE then some bag.cert
        else certificate) acc
      = match bags.reverse.find? (keyMatches k) with
        | some b => some b.cert
        | none => acc by
    have := h none
    unfold selectCertificate
    rw [this]
    cases bags.reverse.find? (keyMatches k) <;> rfl
  induction bags with
  | nil => intro acc; rfl
  | cons b bs ih =>
    intro acc
    rw [List.foldl_cons, ih]
    rw [show (b :: bs).reverse = bs.reverse ++ [b] from by simp]
    rw [find?_append_cases]
    cases hrec : bs.reverse.find? (keyMatches k) with
    | some x => rfl
    | none =>
      by_cases hm : k.n = b.cert.publicKeyN ∧ k.e = b.cert.publicKeyE
      · rw [if_pos hm]
        rw [show List.find? (keyMatches k) [b] = some b from by
          simp [List.find?, keyMatches, hm.1, hm.2]]
      · rw [if_neg hm]
        rw [show List.find? (keyMatches k) [b] = none from by
          simp only [List.find?]
          rw [show keyMatches k b = false from by
            unfold keyMatches
            simp only [Bool.and_eq_false_iff, beq_eq_false_iff_ne]
            by_cases h1 : k.n = b.cert.publicKeyN
            · right
              intro hc
              exact hm ⟨h1, hc⟩
            · left
              exact h1]]

/-- C4 (corrected, amended with "last match"): iterating the certificate
bags, every bag whose public-key parameters (`n`, `e`) equal the private
key's overwrites the selection, so the LAST match in bag iteration order
becomes the signing certificate (equivalently, the first match of the
reversed bag list); and when no certificate matches, `sign` fails with the
`TYPE_INPUT` error "Failed to find a certificate that matches the private
key.". -/
theorem certificate_selection
    (bags : List CertBag) (key : PrivateKey)
    (tk : SignToolkit) (pdfBuffer pdf p12b : Buf) (opts : SignOptions)
    (loc : LocInfo) (pdf1 : Buf) (keys : List PrivateKey)
    (htrim : removeTrailingNewLine pdfBuffer = pdf)
    (hloc : signLocate pdf = .ok loc)
    (hsp : signSpliceByteRange pdf loc = .ok pdf1)
    (hp12 : tk.pkcs12FromDer p12b opts.asn1StrictParsing opts.passphrase = .ok ⟨bags, keys⟩)
    (hkey : keys.head? = some key) :
    selectCertificate bags key = (bags.reverse.find? (keyMatches key)).map CertBag.cert
    ∧ (selectCertificate bags key = none →
        sign tk pdfBuffer p12b opts = .error (.signPdf
          ⟨"Failed to find a certificate that matches the private key.",
            SignPdfErrorType.TYPE_INPUT⟩)) := by
  refine ⟨selectCertificate_eq_last_match bags key, ?_⟩
  intro hnone
  unfold sign
  rw [htrim]
  simp only [signAfterTrim, hloc, hsp, hp12, hkey, hnone]

/-- Witness for C4's theorem: concrete two-certificate bags (both matching)
and a no-match run that fails with the exact error. -/
theorem certificate_selection_witness :
    (selectCertificate [⟨certToy⟩, ⟨⟨5, 3, 8⟩⟩] keyToy
        = (([⟨certToy⟩, ⟨⟨5, 3, 8⟩⟩] : List CertBag).reverse.find?
            (keyMatches keyToy)).map CertBag.cert
      ∧ (selectCertificate [⟨certToy⟩, ⟨⟨5, 3, 8⟩⟩] keyToy = none →
          sign tkReveal (docOf AW MW PW SW) [] defaultOptions = .error (.signPdf
            ⟨"Failed to find a certificate that matches the private key.",
              SignPdfErrorType.TYPE_INPUT⟩)))
    ∧ (selectCertificate [⟨⟨9, 9, 1⟩⟩] keyToy
        = (([⟨⟨9, 9, 1⟩⟩] : List CertBag).reverse.find? (keyMatches keyToy)).map CertBag.cert
      ∧ (selectCertificate [⟨⟨9, 9, 1⟩⟩] keyToy = none →
          sign tkNoMatch (docOf AW MW PW SW) [] defaultOptions = .error (.signPdf
            ⟨"Failed to find a certificate that matches the private key.",
              SignPdfErrorType.TYPE_INPUT⟩))) :=
  ⟨certificate_selection [⟨certToy⟩, ⟨⟨5, 3, 8⟩⟩] keyToy tkReveal (docOf AW MW PW SW)
      (docOf AW MW PW SW) [] defaultOptions (locOf AW MW PW SW) (rewrittenOf AW MW PW SW)
      [keyToy] (by decide) (by decide) (by decide) (by decide) (by decide),
   certificate_selection [⟨⟨9, 9, 1⟩⟩] keyToy tkNoMatch (docOf AW MW PW SW)
      (docOf AW MW PW SW) [] defaultOptions (locOf AW MW PW SW) (rewrittenOf AW MW PW SW)
      [keyToy] (by decide) (by decide) (by decide) (by decide) (by decide)⟩

/-- Counterexample to C4 as stated ("the first match becomes the signing
certificate"): with two certificates both matching the key, the FIRST match
in bag order is the serial-7 certificate, yet the selected signing
certificate is the serial-8 one — visible in the produced signature when the
toolkit serializes the signing certificate's serial. -/
theorem first_match_counterexample :
    selectCertificate [⟨certToy⟩, ⟨⟨5, 3, 8⟩⟩] keyToy = some ⟨5, 3, 8⟩
    ∧ List.find? (keyMatches keyToy) [⟨certToy⟩, ⟨⟨5, 3, 8⟩⟩] = some ⟨certToy⟩
    ∧ (⟨5, 3, 8⟩ : Certificate) ≠ certToy
    ∧ Except.map (fun p => p.2) (sign tkReveal (docOf AW MW PW SW) [] defaultOptions)
      = .ok (hexEncodeBytes [8]) := by
  decide
-- Claim C3

/-- A document that contains the literal ByteRange placeholder but no
`/Contents ` tag (and no `<`...`>` placeholder) after it. -/
def docNoContents : Buf := byteRangeString ++ strBytes "x"

/-- C3 (code_bug): on a document with the ByteRange placeholder but no
`/Contents ` tag, `signLocate` computes `contentsTagPos = -1` and `sign` does
NOT fail with a ParseError — it proceeds with the `-1` positions (deriving
`placeholderLength = -1`), parses the container, builds the signature, and
only then aborts with the unrelated `TYPE_INPUT` error "Signature exceeds
placeholder length: 4 > -1". -/
theorem missing_contents_no_parse_error :
    Except.map LocInfo.contentsTagPos (signLocate docNoContents) = .ok (-1)
    ∧ Except.map LocInfo.placeholderLength (signLocate docNoContents) = .ok (-1)
    ∧ sign tkToy docNoContents [] defaultOptions
      = .error (.signPdf ⟨sigTooBigMsg 2 (-1), SignPdfErrorType.TYPE_INPUT⟩) := by
  decide
-- Claims C1 and C9

theorem verifyTry_ok_shape {vt : VerifyToolkit} {pdf : Buf} {r : VerificationResult}
    (h : verifyTry vt pdf = .ok r) : r = ⟨true, none⟩ := by
  unfold verifyTry at h
  split at h
  · cases h
  · rename_i x0 sig0 sd0 heq0
    cases hp : vt.parseSignedData sig0 with
    | none => rw [hp] at h; cases h
    | some m =>
      rw [hp] at h
      dsimp only [] at h
      cases hc : m.certs.head? with
      | none => rw [hc] at h; cases h
      | some c0 =>
        rw [hc] at h
        dsimp only [] at h
        by_cases hv : vt.cryptoVerify m.hashAlg (vt.derEncodeAttrSet m.attrs)
            (vt.certToPem c0) m.sig = false
        · rw [if_pos hv] at h; cases h
        · rw [if_neg hv] at h
          cases hd : m.msgDigestValue with
          | none => rw [hd] at h; cases h
          | some d =>
            rw [hd] at h
            dsimp only [] at h
            by_cases hne : vt.cryptoHash m.hashAlg sd0 ≠ d
            · rw [if_pos hne] at h; cases h
            · rw [if_neg hne] at h
              injection h with h2
              exact h2.symm

theorem verifyBuf_shape (vt : VerifyToolkit) (b : Buf) :
    verifyBuf vt b = ⟨true, none⟩ ∨ ∃ msg, verifyBuf vt b = ⟨false, some msg⟩ := by
  unfold verifyBuf
  cases h : verifyTry vt b with
  | ok r =>
    left
    rw [verifyTry_ok_shape h]
  | error e =>
    right
    cases e with
    | signPdf e2 => exact ⟨e2.message, rfl⟩
    | js m => exact ⟨genericVerifyFailure, rfl⟩

/-- C1 (corrected): `verify` never raises FOR BUFFER INPUTS — every outcome
is a terminal `VerificationResult`, either `{verified := true}` or
`{verified := false, message := some reason}` (the source names the reason
field `message`).  But the claim's "including an input that is not a document
buffer" part fails: the `instanceof Buffer` check sits outside the
`try`/`catch`, so a non-Buffer argument THROWS a `TYPE_INPUT` `SignPdfError`
instead of returning a result. -/
theorem verify_totality (vt : VerifyToolkit) :
    (∀ b : Buf, ∃ r : VerificationResult, verify vt (JsValue.buffer b) = .ok r
        ∧ (r = ⟨true, none⟩ ∨ ∃ msg, r = ⟨false, some msg⟩))
    ∧ verify vt JsValue.nonBuffer
      = .error ⟨"PDF expected as Buffer.", SignPdfErrorType.TYPE_INPUT⟩ := by
  refine ⟨fun b => ⟨verifyBuf vt b, rfl, ?_⟩, rfl⟩
  rcases verifyBuf_shape vt b with h | ⟨m, h⟩
  · left; exact h
  · right; exact ⟨m, h⟩

/-- Counterexample to C1 as stated: at the concrete non-Buffer input,
`verify` throws (returns an exception, not a `VerificationResult`). -/
theorem verify_nonbuffer_counterexample :
    verify vtToyEven JsValue.nonBuffer
      = .error ⟨"PDF expected as Buffer.", SignPdfErrorType.TYPE_INPUT⟩ := rfl

/-- C9 (confirmed): the two cryptographic failure modes are reported
separately and verbatim — a failing authenticated-attributes signature check
yields reason "Wrong authenticated attributes", a content-digest mismatch
yields "Wrong content digest", and extraction/parse failures yield the
generic "couldn't verify file signature"; the three strings are pairwise
distinct. -/
theorem verify_reason_strings (vt : VerifyToolkit) (pdf : Buf) :
    (∀ sig sd : Buf, ∀ m : ParsedP7, ∀ c0 : Certificate, ∀ cs : List Certificate,
        extractSignature pdf = some (sig, sd) →
        vt.parseSignedData sig = some m → m.certs = c0 :: cs →
        vt.cryptoVerify m.hashAlg (vt.derEncodeAttrSet m.attrs) (vt.certToPem c0) m.sig
          = false →
        verifyBuf vt pdf = ⟨false, some "Wrong authenticated attributes"⟩)
    ∧ (∀ sig sd : Buf, ∀ m : ParsedP7, ∀ c0 : Certificate, ∀ cs : List Certificate, ∀ d : Buf,
        extractSignature pdf = some (sig, sd) →
        vt.parseSignedData sig = some m → m.certs = c0 :: cs →
        vt.cryptoVerify m.hashAlg (vt.derEncodeAttrSet m.attrs) (vt.certToPem c0) m.sig
          = true →
        m.msgDigestValue = some d → vt.cryptoHash m.hashAlg sd ≠ d →
        verifyBuf vt pdf = ⟨false, some "Wrong content digest"⟩)
    ∧ (extractSignature pdf = none → verifyBuf vt pdf = ⟨false, some genericVerifyFailure⟩)
    ∧ (∀ sig sd : Buf, extractSignature pdf = some (sig, sd) →
        vt.parseSignedData sig = none →
        verifyBuf vt pdf = ⟨false, some genericVerifyFailure⟩)
    ∧ "Wrong authenticated attributes" ≠ "Wrong content digest"
    ∧ "Wrong authenticated attributes" ≠ genericVerifyFailure
    ∧ "Wrong content digest" ≠ genericVerifyFailure := by
  refine ⟨?_, ?_, ?_, ?_, by decide, by decide, by decide⟩
  · intro sig sd m c0 cs hex hparse hcerts hv
    simp only [verifyBuf, verifyTry, hex, hparse, hcerts, List.head?_cons, hv]
    simp
  · intro sig sd m c0 cs d hex hparse hcerts hv hdig hne
    simp only [verifyBuf, verifyTry, hex, hparse, hcerts, List.head?_cons, hv, hdig]
    simp [hne]
  · intro hex
    simp only [verifyBuf, verifyTry, hex]
  · intro sig sd hex hparse
    simp only [verifyBuf, verifyTry, hex, hparse]

/-- A handcrafted already-signed document for the C9 witness. -/
def docSigned : Buf :=
  strBytes "/ByteRange [0 30 36 4]" ++ strBytes "abcdefgh" ++ strBytes "<00ff>"
    ++ strBytes "tail"

/-- The two signed spans of `docSigned`, concatenated. -/
def sdSigned : Buf :=
  strBytes "/ByteRange [0 30 36 4]" ++ strBytes "abcdefgh" ++ strBytes "tail"

/-- A toolkit whose public-key signature check rejects. -/
def vtAttrFail : VerifyToolkit :=
  ⟨fun b => some ⟨b, [], "SHA256", [certToy], some [9]⟩,
   fun a => a, fun _ => "PEM", fun _ _ _ _ => false, fun _ _ => [9]⟩

/-- A toolkit whose signature check accepts but whose recomputed digest
differs from the message-digest attribute. -/
def vtDigestFail : VerifyToolkit :=
  ⟨fun b => some ⟨b, [], "SHA256", [certToy], some [7]⟩,
   fun a => a, fun _ => "PEM", fun _ _ _ _ => true, fun _ _ => [9]⟩

/-- A toolkit whose DER parse throws. -/
def vtParseFail : VerifyToolkit :=
  ⟨fun _ => none, fun a => a, fun _ => "PEM", fun _ _ _ _ => true, fun _ b => b⟩

/-- Witness for C9's theorem: each reported reason realized at a concrete
document and toolkit. -/
theorem verify_reason_strings_witness :
    verifyBuf vtAttrFail docSigned = ⟨false, some "Wrong authenticated attributes"⟩
    ∧ verifyBuf vtDigestFail docSigned = ⟨false, some "Wrong content digest"⟩
    ∧ verifyBuf vtAttrFail [] = ⟨false, some genericVerifyFailure⟩
    ∧ verifyBuf vtParseFail docSigned = ⟨false, some genericVerifyFailure⟩ :=
  ⟨(verify_reason_strings vtAttrFail docSigned).1 [0, 255] sdSigned
      ⟨[0, 255], [], "SHA256", [certToy], some [9]⟩ certToy []
      (by decide) (by decide) (by decide) (by decide),
   (verify_reason_strings vtDigestFail docSigned).2.1 [0, 255] sdSigned
      ⟨[0, 255], [], "SHA256", [certToy], some [7]⟩ certToy [] [7]
      (by decide) (by decide) (by decide) (by decide) (by decide) (by decide),
   (verify_reason_strings vtAttrFail []).2.2.1 (by decide),
   (verify_reason_strings vtParseFail docSigned).2.2.2.1 [0, 255] sdSigned
      (by decide) (by decide)⟩
-- Claims C6 and C10

theorem signLocate_ok_inv {pdf : Buf} {loc : LocInfo} (h : signLocate pdf = .ok loc) :
    loc.byteRangePos = jsIndexOf pdf byteRangeString 0
    ∧ jsIndexOf pdf byteRangeString 0 ≠ -1
    ∧ loc.byteRangeEnd = loc.byteRangePos + (byteRangeString.length : Int)
    ∧ loc.contentsTagPos = jsIndexOf pdf (strBytes "/Contents ") loc.byteRangeEnd
    ∧ loc.placeholderPos = jsIndexOf pdf (strBytes "<") loc.contentsTagPos
    ∧ loc.placeholderEnd = jsIndexOf pdf (strBytes ">") loc.placeholderPos
    ∧ loc.placeholderLengthWithBrackets = loc.placeholderEnd + 1 - loc.placeholderPos
    ∧ loc.placeholderLength = loc.placeholderLengthWithBrackets - 2
    ∧ loc.byteRange0 = 0
    ∧ loc.byteRange1 = loc.placeholderPos
    ∧ loc.byteRange2 = loc.placeholderPos + loc.placeholderLengthWithBrackets
    ∧ loc.byteRange3 = (pdf.length : Int) - loc.byteRange2 := by
  simp only [signLocate] at h
  split at h
  · cases h
  · rename_i hne
    injection h with h2
    subst h2
    exact ⟨rfl, hne, rfl, rfl, rfl, rfl, rfl, rfl, rfl, rfl, rfl, rfl⟩

theorem signLocate_sum {pdf : Buf} {loc : LocInfo} (h : signLocate pdf = .ok loc) :
    loc.byteRange1 + loc.byteRange3 + loc.placeholderLengthWithBrackets
      = (pdf.length : Int) := by
  obtain ⟨-, -, -, -, -, -, -, -, -, h10, h11, h12⟩ := signLocate_ok_inv h
  rw [h10, h12, h11]
  ring

/-- C6 (corrected): for every input document containing the literal
placeholder, the ByteRange `sign` computes and writes satisfies `start0 = 0`
and contiguity (`byteRange2 = byteRange1 + placeholderLengthWithBrackets`),
and `len0 + len1 + signatureFieldWidth` equals the length of the TRIMMED
document (the input after `removeTrailingNewLine`), which equals the
caller's original length only when the input does not end with a newline. -/
theorem byteRange_sum (pdfBuffer : Buf) (loc : LocInfo)
    (h : signLocate (removeTrailingNewLine pdfBuffer) = .ok loc) :
    loc.byteRange0 = 0
    ∧ loc.byteRange2 = loc.byteRange1 + loc.placeholderLengthWithBrackets
    ∧ loc.byteRange1 + loc.byteRange3 + loc.placeholderLengthWithBrackets
      = ((removeTrailingNewLine pdfBuffer).length : Int) := by
  obtain ⟨-, -, -, -, h5, -, -, -, h9, h10, h11, -⟩ := signLocate_ok_inv h
  refine ⟨h9, ?_, signLocate_sum h⟩
  rw [h10, h11]

/-- Witness for C6's theorem at a concrete placeholder document. -/
theorem byteRange_sum_witness :
    (locOf AW MW PW SW).byteRange0 = 0
    ∧ (locOf AW MW PW SW).byteRange2
      = (locOf AW MW PW SW).byteRange1 + (locOf AW MW PW SW).placeholderLengthWithBrackets
    ∧ (locOf AW MW PW SW).byteRange1 + (locOf AW MW PW SW).byteRange3
        + (locOf AW MW PW SW).placeholderLengthWithBrackets
      = ((removeTrailingNewLine (docOf AW MW PW SW)).length : Int) :=
  byteRange_sum (docOf AW MW PW SW) (locOf AW MW PW SW) (by decide)

/-- A placeholder document ending in a newline byte. -/
def docNL : Buf := docOf AW MW PW SW ++ [10]

/-- Counterexample to C6 as stated: for the newline-terminated document the
computed spans sum to 70 — the TRIMMED length — while the original document
length is 71. -/
theorem byteRange_sum_counterexample :
    Except.map (fun l => l.byteRange1 + l.byteRange3 + l.placeholderLengthWithBrackets)
        (signLocate (removeTrailingNewLine docNL)) = .ok 70
    ∧ docNL.length = 71 := by
  decide

/-- C10 (confirmed, spec-modelled helper): when the input ends with a newline
byte, `sign` first strips it — the buffer all offsets and lengths refer to is
`pdfBuffer.dropLast`, one byte shorter than the caller's buffer, and the
whole pipeline runs on that trimmed buffer; in particular the computed
ByteRange spans sum to the trimmed length. -/
theorem sign_trims_trailing_newline (tk : SignToolkit) (pdfBuffer p12b : Buf)
    (opts : SignOptions) (h : pdfBuffer.getLast? = some 10) :
    removeTrailingNewLine pdfBuffer = pdfBuffer.dropLast
    ∧ (removeTrailingNewLine pdfBuffer).length + 1 = pdfBuffer.length
    ∧ sign tk pdfBuffer p12b opts = signAfterTrim tk pdfBuffer.dropLast p12b opts
    ∧ ∀ loc : LocInfo, signLocate pdfBuffer.dropLast = .ok loc →
        loc.byteRange1 + loc.byteRange3 + loc.placeholderLengthWithBrackets
          = (pdfBuffer.dropLast.length : Int) := by
  have htrim : removeTrailingNewLine pdfBuffer = pdfBuffer.dropLast := by
    unfold removeTrailingNewLine
    rw [if_pos h]
  have hne : pdfBuffer ≠ [] := by
    intro hc
    subst hc
    simp at h
  have hlen : pdfBuffer.dropLast.length + 1 = pdfBuffer.length := by
    rw [List.length_dropLast]
    have : 0 < pdfBuffer.length := List.length_pos.mpr hne
    omega
  refine ⟨htrim, by rw [htrim]; exact hlen, ?_, ?_⟩
  · unfold sign
    rw [htrim]
  · intro loc hloc
    exact signLocate_sum hloc

/-- Witness for C10's theorem at the concrete newline-terminated document. -/
theorem sign_trims_trailing_newline_witness :
    removeTrailingNewLine docNL = docNL.dropLast
    ∧ (removeTrailingNewLine docNL).length + 1 = docNL.length
    ∧ sign tkToy docNL [] defaultOptions = signAfterTrim tkToy docNL.dropLast [] defaultOptions
    ∧ ∀ loc : LocInfo, signLocate docNL.dropLast = .ok loc →
        loc.byteRange1 + loc.byteRange3 + loc.placeholderLengthWithBrackets
          = (docNL.dropLast.length : Int) :=
  sign_trims_trailing_newline tkToy docNL [] defaultOptions (by decide)
-- Claim C7

theorem intReprBytes_length_le (i : Int)
    (hlow : -(2 ^ 32 : Int) - 2 ≤ i) (hhigh : i ≤ (2 ^ 32 : Int)) :
    (intReprBytes i).length ≤ 11 := by
  have hlt : ∀ n : Nat, n ≤ 2 ^ 32 + 2 → (natDigits n).length ≤ 10 := by
    intro n hn
    exact natDigits_length_le (by omega) (by
      have : (2 : Nat) ^ 32 + 2 < 10 ^ 10 := by norm_num
      omega)
  unfold intReprBytes
  by_cases hneg : i < 0
  · rw [if_pos hneg]
    simp only [List.length_cons]
    have := hlt (-i).toNat (by omega)
    omega
  · rw [if_neg hneg]
    have := hlt i.toNat (by omega)
    omega

theorem actualByteRangeBytes_length_le (loc : LocInfo)
    (h0 : loc.byteRange0 = 0)
    (h1 : -(2 ^ 32 : Int) - 2 ≤ loc.byteRange1 ∧ loc.byteRange1 ≤ (2 ^ 32 : Int))
    (h2 : -(2 ^ 32 : Int) - 2 ≤ loc.byteRange2 ∧ loc.byteRange2 ≤ (2 ^ 32 : Int))
    (h3 : -(2 ^ 32 : Int) - 2 ≤ loc.byteRange3 ∧ loc.byteRange3 ≤ (2 ^ 32 : Int)) :
    (actualByteRangeBytes loc).length ≤ byteRangeString.length := by
  have e1 := intReprBytes_length_le loc.byteRange1 h1.1 h1.2
  have e2 := intReprBytes_length_le loc.byteRange2 h2.1 h2.2
  have e3 := intReprBytes_length_le loc.byteRange3 h3.1 h3.2
  have hbs : byteRangeString.length = 50 := rfl
  have h12 : (strBytes "/ByteRange [").length = 12 := rfl
  have hbrk : (strBytes "]").length = 1 := rfl
  have hz : (intReprBytes (0 : Int)).length = 1 := rfl
  unfold actualByteRangeBytes
  rw [h0]
  rw [show strBytes " " = [32] from rfl, intercalate_four]
  simp only [List.length_append, List.length_cons]
  omega

theorem int_bound_of_jsIndexOf (pdf needle : Buf) (start : Int) (hne : needle ≠ [])
    (hb : pdf.length ≤ 2 ^ 32) :
    -1 ≤ jsIndexOf pdf needle start ∧ jsIndexOf pdf needle start ≤ (2 ^ 32 : Int) := by
  rcases jsIndexOf_cases pdf needle start hne with h | ⟨k, hk, hkb⟩
  · rw [h]
    omega
  · rw [hk]
    have hn : 1 ≤ needle.length := by
      cases needle with
      | nil => exact absurd rfl hne
      | cons a as => simp
    omega

/-- C7 (confirmed): rewriting the `/ByteRange` placeholder with the actual
values (space-padded) produces a buffer of exactly the same length, with
every byte before the placeholder and every byte from its end onward
unchanged.  The bound `pdf.length ≤ 2 ^ 32` reflects the maximum possible
Node.js `Buffer` size, under which the rendered ByteRange text always fits
the 50-character placeholder. -/
theorem byteRange_rewrite_preserves_layout (pdf : Buf) (loc : LocInfo)
    (h : signLocate pdf = .ok loc) (hb : pdf.length ≤ 2 ^ 32) :
    ∃ rw1 : Buf, signSpliceByteRange pdf loc = .ok rw1
      ∧ rw1.length = pdf.length
      ∧ (∀ i : Nat, (i : Int) < loc.byteRangePos → rw1[i]? = pdf[i]?)
      ∧ (∀ i : Nat, loc.byteRangeEnd ≤ (i : Int) → rw1[i]? = pdf[i]?) := by
  obtain ⟨i1, i2, i3, i4, i5, i6, i7, i8, i9, i10, i11, i12⟩ := signLocate_ok_inv h
  have hbs : byteRangeString.length = 50 := rfl
  -- the found ByteRange position is a genuine occurrence
  obtain ⟨k, hk, hkb⟩ : ∃ k : Nat, jsIndexOf pdf byteRangeString 0 = (k : Int)
      ∧ k + byteRangeString.length ≤ pdf.length := by
    rcases jsIndexOf_cases pdf byteRangeString 0 (by decide) with hc | hc
    · exact absurd hc i2
    · exact hc
  rw [hbs] at hkb
  -- bound the byteRange values via the index bounds
  have hpp := int_bound_of_jsIndexOf pdf (strBytes "<") loc.contentsTagPos (by decide) hb
  have hpe := int_bound_of_jsIndexOf pdf (strBytes ">") loc.placeholderPos (by decide) hb
  rw [← i5] at hpp
  rw [← i6] at hpe
  have hpe2 : loc.placeholderEnd + 1 ≤ (pdf.length : Int) ∨ loc.placeholderEnd = -1 := by
    rcases jsIndexOf_cases pdf (strBytes ">") loc.placeholderPos (by decide) with hc | ⟨k3, hk3, hk3b⟩
    · right; rw [i6]; exact hc
    · left
      rw [i6, hk3]
      have : (strBytes ">").length = 1 := rfl
      omega
  have hb2 : loc.byteRange2 = loc.placeholderEnd + 1 := by
    rw [i11, i7]
    ring
  have hbound1 : -(2 ^ 32 : Int) - 2 ≤ loc.byteRange1 ∧ loc.byteRange1 ≤ (2 ^ 32 : Int) := by
    rw [i10]
    omega
  have hbound2 : -(2 ^ 32 : Int) - 2 ≤ loc.byteRange2 ∧ loc.byteRange2 ≤ (2 ^ 32 : Int) := by
    rw [hb2]
    rcases hpe2 with hc | hc <;> omega
  have hbound3 : -(2 ^ 32 : Int) - 2 ≤ loc.byteRange3 ∧ loc.byteRange3 ≤ (2 ^ 32 : Int) := by
    rw [i12, hb2]
    rcases hpe2 with hc | hc <;> omega
  have habr := actualByteRangeBytes_length_le loc i9 hbound1 hbound2 hbound3
  -- the splice succeeds
  refine ⟨pdf.take k ++ (actualByteRangeBytes loc
      ++ List.replicate (byteRangeString.length - (actualByteRangeBytes loc).length) 32)
      ++ pdf.drop (k + 50), ?_, ?_, ?_, ?_⟩
  · rw [show signSpliceByteRange pdf loc
        = (match jsRepeatList (strBytes " ")
            ((byteRangeString.length : Int) - ((actualByteRangeBytes loc).length : Int)) with
          | .error m => .error (.js m)
          | .ok pad =>
            .ok (jsSlice pdf 0 loc.byteRangePos ++ (actualByteRangeBytes loc ++ pad)
                  ++ jsSlice pdf loc.byteRangeEnd ((pdf.length : Int)))) from by
      unfold signSpliceByteRange
      rfl]
    rw [show jsRepeatList (strBytes " ")
        ((byteRangeString.length : Int) - ((actualByteRangeBytes loc).length : Int))
        = .ok (List.flatten (List.replicate
            ((byteRangeString.length : Int) - ((actualByteRangeBytes loc).length : Int)).toNat
            (strBytes " "))) from by
      unfold jsRepeatList
      rw [if_neg (by omega)]]
    rw [show strBytes " " = [32] from rfl, flatten_replicate_singleton]
    rw [show ((byteRangeString.length : Int) - ((actualByteRangeBytes loc).length : Int)).toNat
        = byteRangeString.length - (actualByteRangeBytes loc).length by omega]
    rw [i1, hk]
    rw [show jsSlice pdf 0 ((k : Nat) : Int) = pdf.take k from by
      rw [show (0 : Int) = ((0 : Nat) : Int) from rfl, jsSlice_eq pdf 0 k (by omega)]
      rw [List.drop_zero]]
    rw [i3, i1, hk, hbs]
    rw [show ((k : Nat) : Int) + ((50 : Nat) : Int) = ((k + 50 : Nat) : Int) from by push_cast; ring]
    rw [show jsSlice pdf ((k + 50 : Nat) : Int) ((pdf.length : Int)) = pdf.drop (k + 50) from by
      rw [jsSlice_eq pdf (k + 50) pdf.length (le_refl _)]
      rw [List.take_length]]
  · simp only [List.length_append, List.length_take, List.length_replicate, List.length_drop]
    omega
  · intro i hi
    rw [i1, hk] at hi
    have hik : i < k := by omega
    rw [List.getElem?_append_left (by
      simp only [List.length_append, List.length_take]
      omega)]
    rw [List.getElem?_append_left (by
      simp only [List.length_take]
      omega)]
    rw [List.getElem?_take_of_lt hik]
  · intro i hi
    rw [i3, i1, hk, hbs] at hi
    have hik : k + 50 ≤ i := by omega
    rw [List.getElem?_append_right (by
      simp only [List.length_append, List.length_take, List.length_replicate]
      omega)]
    rw [List.getElem?_drop]
    congr 1
    simp only [List.length_append, List.length_take, List.length_replicate]
    omega

/-- Witness for C7's theorem at the concrete placeholder document. -/
theorem byteRange_rewrite_preserves_layout_witness :
    ∃ rw1 : Buf, signSpliceByteRange (docOf AW MW PW SW) (locOf AW MW PW SW) = .ok rw1
      ∧ rw1.length = (docOf AW MW PW SW).length
      ∧ (∀ i : Nat, (i : Int) < (locOf AW MW PW SW).byteRangePos →
          rw1[i]? = (docOf AW MW PW SW)[i]?)
      ∧ (∀ i : Nat, (locOf AW MW PW SW).byteRangeEnd ≤ (i : Int) →
          rw1[i]? = (docOf AW MW PW SW)[i]?) :=
  byteRange_rewrite_preserves_layout (docOf AW MW PW SW) (locOf AW MW PW SW)
    (by decide) (by decide)
